import Mathlib

/-!
Verification of the consensus-orchestration core of the `aicx` CLI
(multi-model consensus protocol).  Python sources are shallowly embedded:
machine integers become `Int`/`Nat`, Python `float` quantities that the
code only ever compares or combines exactly (ratios, thresholds) become
`Rat`, fallible code returns `Except`.  Python strings are modelled by
Lean `String`; Python's code-point string comparison is embedded
explicitly (`pyStrLt`) so that it computes by kernel reduction.
-/

namespace Aicx

/-! ### Python string primitives -/

/-- Code-point comparison of two char lists, as Python compares `str`
(lexicographic on Unicode code points). -/
def pyListLt : List Char → List Char → Bool
  | [], [] => false
  | [], _ :: _ => true
  | _ :: _, [] => false
  | a :: as, b :: bs =>
    if a.toNat < b.toNat then true
    else if b.toNat < a.toNat then false
    else pyListLt as bs

/-- Python `a < b` on strings. -/
def pyStrLt (a b : String) : Bool := pyListLt a.toList b.toList

/-- Python `a <= b` on strings (total order, so `a <= b` iff `not (b < a)`). -/
def pyStrLe (a b : String) : Bool := !(pyStrLt b a)

/-- Python `str.split()` with no separator: split on runs of whitespace,
dropping empty pieces.  Helper walking the char list with an accumulator
holding the current (reversed) token. -/
def pySplitAux : List Char → List Char → List (List Char)
  | [], acc => if acc.isEmpty then [] else [acc.reverse]
  | c :: cs, acc =>
    if c.isWhitespace then
      if acc.isEmpty then pySplitAux cs [] else acc.reverse :: pySplitAux cs []
    else pySplitAux cs (c :: acc)

/-- Python `text.split()` (whitespace tokenization). -/
def pySplit (s : String) : List String :=
  (pySplitAux s.toList []).map List.asString

/-! ### stop.py : `_levenshtein_distance`

The source computes the standard dynamic program with two rolling
rows (`previous_row`, `current_row`), after swapping the sequences so the
first is the longer one.  `levNextRowAux` is the inner `for j, c2 in
enumerate(seq2)` loop, `levLoop` the outer `for i, c1 in enumerate(seq1)`
loop, `levenshteinDistance` the whole function. -/

/-- Inner DP loop: given the char `c1` of `seq1` being processed, the last
computed entry `left` of the current row (`current_row[j]`), the tail of
the previous row starting at `previous_row[j]`, and the remaining chars of
`seq2`, produce the remaining entries of the current row. -/
def levNextRowAux (c1 : String) : (left : ℕ) → List ℕ → List String → List ℕ
  | left, pd :: pd1 :: rest, c2 :: cs =>
    let insertions := pd1 + 1
    let deletions := left + 1
    let substitutions := pd + (if c1 = c2 then 0 else 1)
    let v := min insertions (min deletions substitutions)
    v :: levNextRowAux c1 v (pd1 :: rest) cs
  | _, _, _ => []

/-- One iteration of the outer DP loop: `current_row[0] = i + 1` followed by
the inner loop over `seq2`. -/
def levNextRow (c1 : String) (i : ℕ) (prev : List ℕ) (seq2 : List String) : List ℕ :=
  (i + 1) :: levNextRowAux c1 (i + 1) prev seq2

/-- Outer DP loop over `seq1`, threading the previous row and the 0-based
index `i`. -/
def levLoop (seq2 : List String) : List String → List ℕ → ℕ → List ℕ
  | [], prev, _ => prev
  | c1 :: rest, prev, i => levLoop seq2 rest (levNextRow c1 i prev seq2) (i + 1)

/-- Embedding of `_levenshtein_distance(seq1, seq2)` from
`src/aicx/consensus/stop.py`: swap so `seq1` is the longer sequence, return
`len(seq1)` when `seq2` is empty, otherwise run the DP and read
`previous_row[len(seq2)]`. -/
def levenshteinDistance (seq1 seq2 : List String) : ℕ :=
  let p := if seq1.length < seq2.length then (seq2, seq1) else (seq1, seq2)
  if p.2.length = 0 then p.1.length
  else (levLoop p.2 p.1 (List.range (p.2.length + 1)) 0).getD p.2.length 0

/-- Reference recursive Levenshtein distance with unit costs, structured on
the heads of both lists; the min-nesting matches the source's
`min(insertions, deletions, substitutions)`. -/
def levSpec : List String → List String → ℕ
  | [], bs => bs.length
  | _ :: as, [] => as.length + 1
  | a :: as, b :: bs =>
    min (levSpec as (b :: bs) + 1)
      (min (levSpec (a :: as) bs + 1) (levSpec as bs + (if a = b then 0 else 1)))
termination_by a b => a.length + b.length

/-- Row of prefix distances for the processed (reversed) prefix `rp` of
`seq1`: entry `j ≥ 1` is `levSpec rp (reverse of the first j chars of cs ++ rq)`. -/
def specRowAux (rp : List String) : List String → List String → List ℕ
  | _, [] => []
  | rq, c2 :: cs => levSpec rp (c2 :: rq) :: specRowAux rp (c2 :: rq) cs

/-- Full DP row for processed prefix `rp` (reversed) against `s2`. -/
def specRow (rp s2 : List String) : List ℕ :=
  levSpec rp [] :: specRowAux rp [] s2

/-! ### stop.py : ratio and stop conditions -/

/-- Embedding of `compute_change_ratio` from `src/aicx/consensus/stop.py`.
The Python float division of two small non-negative ints is modelled
exactly in `ℚ`. -/
def compute_change_ratio (text1 text2 : String) : ℚ :=
  let tokens1 := pySplit text1
  let tokens2 := pySplit text2
  let distance := levenshteinDistance tokens1 tokens2
  let max_length := max tokens1.length tokens2.length
  if max_length = 0 then 0 else (distance : ℚ) / (max_length : ℚ)

/-! ### types.py : data model

Frozen dataclasses become structures; `__post_init__` validation becomes a
separate `Except`-valued smart constructor (Python raises `ValueError`
during construction; the plain structure literal plays the role of
`object.__new__`, the `Except` function the role of the validated
constructor). -/

/-- Embedding of `RetryConfig` (types.py). -/
structure RetryConfig where
  max_retries : ℤ := 2
  base_delay_seconds : ℚ := 1
  max_delay_seconds : ℚ := 30
  exponential_base : ℚ := 2
  jitter : Bool := true
deriving DecidableEq

/-- Embedding of `ModelConfig` (types.py). -/
structure ModelConfig where
  name : String
  provider : String
  model_id : String
  temperature : ℚ := 2/10
  max_tokens : ℤ := 2048
  timeout_seconds : ℤ := 60
  weight : ℚ := 1
  retry : Option RetryConfig := none
deriving DecidableEq

/-- Embedding of `ShareMode` (types.py). -/
inductive ShareMode where
  | digest
  | raw
deriving DecidableEq

/-- Embedding of `ExitCode` (types.py); `toInt` gives the numeric value. -/
inductive ExitCode where
  | success
  | config_error
  | provider_error
  | quorum_failure
  | internal_error
deriving DecidableEq

def ExitCode.toInt : ExitCode → ℤ
  | .success => 0
  | .config_error => 1
  | .provider_error => 2
  | .quorum_failure => 3
  | .internal_error => 4

/-- Embedding of `RunConfig` (types.py); the field record without the
`__post_init__` checks, which live in `RunConfig.post_init` below. -/
structure RunConfig where
  models : List ModelConfig
  mediator : ModelConfig
  max_rounds : ℤ := 3
  approval_ratio : ℚ := 67/100
  change_threshold : ℚ := 1/10
  max_context_tokens : Option ℤ := none
  strict_json : Bool := false
  verbose : Bool := false
  share_mode : ShareMode := ShareMode.digest
deriving DecidableEq

/-- Embedding of `RunConfig.__post_init__` (types.py lines 93-103): the
checks run at construction, in source order.  Returns the config itself
when construction succeeds. -/
def RunConfig.post_init (c : RunConfig) : Except String RunConfig :=
  if c.models.length < 2 then
    .error "At least 2 models required"
  else if c.max_rounds < 1 then
    .error "max_rounds must be >= 1"
  else if ¬ (0 ≤ c.approval_ratio ∧ c.approval_ratio ≤ 1) then
    .error "approval_ratio must be in [0, 1]"
  else if ¬ (0 ≤ c.change_threshold ∧ c.change_threshold ≤ 1) then
    .error "change_threshold must be in [0, 1]"
  else if (match c.max_context_tokens with | some t => decide (t < 1) | none => false) then
    .error "max_context_tokens must be >= 1"
  else
    .ok c

/-- Embedding of the `RunConfig.quorum` property:
`math.ceil(len(self.models) * self.approval_ratio)`. -/
def RunConfig.quorum (c : RunConfig) : ℤ :=
  ⌈(c.models.length : ℚ) * c.approval_ratio⌉

/-- Embedding of the disjointness validation performed by the config
loader (config.py lines 214-217): `if mediator.name in model_names:
raise ConfigError(...)`. -/
def validateMediatorNotParticipant (model_names : List String)
    (mediator : ModelConfig) : Except String Unit :=
  if mediator.name ∈ model_names then
    .error "Mediator must not appear in participant model list"
  else
    .ok ()

/-- Embedding of `Role` (types.py). -/
inductive Role where
  | participant
  | mediator
deriving DecidableEq

/-- Embedding of `Digest` (types.py). -/
structure Digest where
  common_points : List String := []
  objections : List String := []
  missing : List String := []
  suggested_edits : List String := []
deriving DecidableEq

/-- Embedding of `Response` (types.py). -/
structure Response where
  model_name : String
  answer : String
  approve : Option Bool := none
  critical : Option Bool := none
  objections : List String := []
  missing : List String := []
  edits : List String := []
  confidence : Option ℚ := none
  raw : Option String := none
deriving DecidableEq, Inhabited

/-- Embedding of `PromptRequest` (types.py). -/
structure PromptRequest where
  user_prompt : String
  system_prompt : String
  round_index : ℤ
  role : Role
  input_digest : Option Digest := none
  candidate_answer : Option String := none
deriving DecidableEq

/-- Embedding of `MediatorState` (types.py). -/
structure MediatorState where
  candidate_answer : String
  rationale : String
  approval_count : ℤ := 0
  critical_objections : List String := []
  disagreement_summary : Option String := none
deriving DecidableEq

/-- The concrete metadata map stored by `run_consensus` (the Python
`dict[str, Any]` holds exactly these four keys there). -/
structure RunMetadata where
  prompt : String
  participants : ℕ
  quorum : ℤ
  failed_models : List String
deriving DecidableEq

/-- Embedding of `ConsensusResult` (types.py), with `metadata` modelled by
`RunMetadata`. -/
structure ConsensusResult where
  output : String
  exit_code : ExitCode
  consensus_reached : Bool
  rounds_completed : ℤ
  mediator_state : Option MediatorState := none
  responses : List Response := []
  digest : Option Digest := none
  metadata : RunMetadata
deriving DecidableEq

/-! ### stop.py : stop conditions -/

/-- Embedding of `check_consensus_reached` (stop.py). -/
def check_consensus_reached (approval_count : ℤ) (critical_objections : List String)
    (config : RunConfig) : Bool :=
  let quorum := config.quorum
  let has_quorum := decide (quorum ≤ approval_count)
  let no_critical := decide (critical_objections.length = 0)
  has_quorum && no_critical

/-- Embedding of `check_max_rounds_reached` (stop.py). -/
def check_max_rounds_reached (current_round : ℤ) (config : RunConfig) : Bool :=
  decide (config.max_rounds ≤ current_round)

/-- Embedding of `check_below_change_threshold` (stop.py): change ratio
strictly below the threshold. -/
def check_below_change_threshold (previous_candidate new_candidate : String)
    (config : RunConfig) : Bool :=
  decide (compute_change_ratio previous_candidate new_candidate < config.change_threshold)

/-- Embedding of `check_no_changes_proposed` (stop.py): true iff no critique
has any objections, missing items or edits. -/
def check_no_changes_proposed (critiques : List Response) : Bool :=
  critiques.all fun critique =>
    !(decide (critique.objections.length > 0)
      || decide (critique.missing.length > 0)
      || decide (critique.edits.length > 0))

/-- Embedding of `should_stop` (stop.py lines 169-216): the four checks in
source order, first match returning its reason. -/
def should_stop (current_round : ℤ) (approval_count : ℤ)
    (critical_objections : List String) (previous_candidate : Option String)
    (new_candidate : String) (critiques : List Response) (config : RunConfig) :
    Bool × String :=
  if check_consensus_reached approval_count critical_objections config then
    (true, "consensus_reached")
  else if check_max_rounds_reached current_round config then
    (true, "max_rounds_reached")
  else if (match previous_candidate with
      | some prev => check_below_change_threshold prev new_candidate config
      | none => false) then
    (true, "below_change_threshold")
  else if check_no_changes_proposed critiques then
    (true, "no_changes_proposed")
  else
    (false, "")

/-! ### digest.py : sentence splitting and frequency ordering -/

/-- Replace every occurrence of token `ps` (nonempty) by `rep`, scanning
left to right — the effect of Python `text.replace(pat, rep)`.  The `fuel`
argument (instantiated with the list length) only makes the recursion
structural; each step consumes at least one character. -/
def replaceTok (ps rep : List Char) : ℕ → List Char → List Char
  | 0, l => l
  | _ + 1, [] => []
  | fuel + 1, c :: cs =>
    if ps.isPrefixOf (c :: cs) then
      rep ++ replaceTok ps rep fuel ((c :: cs).drop ps.length)
    else
      c :: replaceTok ps rep fuel cs

/-- Split at every occurrence of token `ps` — the effect of Python
`text.split(sep)`.  Same fuel discipline as `replaceTok`. -/
def splitTok (ps : List Char) : ℕ → List Char → List (List Char)
  | 0, l => [l]
  | _ + 1, [] => [[]]
  | fuel + 1, c :: cs =>
    if ps.isPrefixOf (c :: cs) then
      [] :: splitTok ps fuel ((c :: cs).drop ps.length)
    else
      (splitTok ps fuel cs).modifyHead (fun g => c :: g)

/-- Python `str.strip()`: remove leading and trailing whitespace. -/
def pyStrip (s : String) : String :=
  ((((s.toList.dropWhile Char.isWhitespace).reverse).dropWhile
      Char.isWhitespace).reverse).asString

/-- Embedding of `_split_into_sentences` (digest.py): four successive
`replace(delim, "|SENT|")` passes, split on `"|SENT|"`, strip each piece,
drop empties. -/
def split_into_sentences (text : String) : List String :=
  let marker := "|SENT|".toList
  let l0 := text.toList
  let l1 := replaceTok ". ".toList marker l0.length l0
  let l2 := replaceTok "! ".toList marker l1.length l1
  let l3 := replaceTok "? ".toList marker l2.length l2
  let l4 := replaceTok "\n".toList marker l3.length l3
  let raw_sentences := splitTok marker l4.length l4
  ((raw_sentences.map fun l => pyStrip l.asString).filter fun s => !s.isEmpty)

/-- The ordering key used by `_sort_by_frequency_and_alpha` and
`_extract_common_points` (digest.py): Python sorts pairs `(-count, item)`
ascending, i.e. count descending, ties by code-point order ascending. -/
def freqAlphaLe (src : List String) (a b : String) : Prop :=
  src.count b < src.count a ∨ (src.count a = src.count b ∧ pyStrLe a b = true)

instance freqAlphaLeDecidable (src : List String) : DecidableRel (freqAlphaLe src) :=
  fun a b => by unfold freqAlphaLe; infer_instance

/-- Embedding of `_sort_by_frequency_and_alpha` (digest.py lines 128-148):
deduplicate (`Counter` keys) and sort by frequency descending then
code-point order ascending.  `Counter` keys carry first-occurrence order
and CPython's sort is stable, but the key function is injective on the
deduplicated items, so the sorted output is the unique `freqAlphaLe`-sorted
arrangement; `dedup` followed by `insertionSort` produces exactly it. -/
def sortByFreqAlpha (items : List String) : List String :=
  if items.isEmpty then []
  else List.insertionSort (freqAlphaLe items) items.dedup

/-- All sentences of all answers, in response order (digest.py
`all_sentences`). -/
def allSentences (responses : List Response) : List String :=
  responses.flatMap fun r => split_into_sentences r.answer

/-- Embedding of `_extract_common_points` (digest.py lines 67-100).  The
float comparison `count >= len(responses) * 0.5` is exact (an integer
against an integer multiple of 0.5) and is embedded integer-exactly as
`len(responses) <= 2 * count`. -/
def extract_common_points (responses : List Response) : List String :=
  if responses.isEmpty then []
  else
    let all_sentences := allSentences responses
    let common := all_sentences.dedup.filter fun s =>
      decide (responses.length ≤ 2 * all_sentences.count s)
    List.insertionSort (freqAlphaLe all_sentences) common

/-- Per-response objections flattened in order (digest.py `all_objections`). -/
def allObjections (responses : List Response) : List String :=
  responses.flatMap fun r => r.objections

/-- Per-response missing items flattened in order. -/
def allMissing (responses : List Response) : List String :=
  responses.flatMap fun r => r.missing

/-- Per-response edits flattened in order. -/
def allEdits (responses : List Response) : List String :=
  responses.flatMap fun r => r.edits

/-- Embedding of `build_digest` (digest.py lines 11-64). -/
def build_digest (responses : List Response) : Digest :=
  if responses.isEmpty then
    { common_points := [], objections := [], missing := [], suggested_edits := [] }
  else
    { common_points := extract_common_points responses
      objections := sortByFreqAlpha (allObjections responses)
      missing := sortByFreqAlpha (allMissing responses)
      suggested_edits := sortByFreqAlpha (allEdits responses) }

/-- A concrete valid run configuration (2 participants, distinct mediator)
used to instantiate universally quantified theorems at concrete inputs. -/
def demoConfig : RunConfig :=
  { models := [
      { name := "alpha", provider := "mock", model_id := "m-a" },
      { name := "beta", provider := "mock", model_id := "m-b" }]
    mediator := { name := "med", provider := "mock", model_id := "m-m" }
    max_rounds := 1
    approval_ratio := 1
    change_threshold := 0 }

/-- Embedding of `update_digest_from_critiques` (digest.py lines 151-189). -/
def update_digest_from_critiques (previous_digest : Digest)
    (critiques : List Response) : Digest :=
  let all_objections := previous_digest.objections ++ allObjections critiques
  let all_missing := previous_digest.missing ++ allMissing critiques
  let all_edits := previous_digest.suggested_edits ++ allEdits critiques
  { common_points := previous_digest.common_points
    objections := sortByFreqAlpha all_objections
    missing := sortByFreqAlpha all_missing
    suggested_edits := sortByFreqAlpha all_edits }

/-! ### consensus/errors.py : round-response validation -/

/-- The two failures `check_round_responses` can raise: `ZeroResponseError`
(carrying the round index) and `QuorumError` (carrying received/required
counts).  Human-readable messages are omitted; the tags and payloads are
what callers distinguish. -/
inductive RoundError where
  | zeroResponse (round_index : ℤ)
  | quorum (received required : ℤ)
deriving DecidableEq

/-- Embedding of `check_round_responses` (consensus/errors.py lines 17-50). -/
def check_round_responses (responses : List Response) (config : RunConfig)
    (round_index : ℤ) : Except RoundError Unit :=
  let num_responses : ℤ := responses.length
  let required := config.quorum
  if num_responses = 0 then
    .error (.zeroResponse round_index)
  else if num_responses < required then
    .error (.quorum num_responses required)
  else
    .ok ()

/-! ### context/tokens.py : token estimation -/

/-- Embedding of `estimate_tokens` (tokens.py): `(len(text) + 3) // 4`,
`0` for the empty string.  Python `len` counts code points, as does
`String.length`. -/
def estimate_tokens (text : String) : ℕ :=
  if text.isEmpty then 0 else (text.length + 3) / 4

/-- Embedding of `count_response_tokens` (tokens.py lines 62-95). -/
def count_response_tokens (r : Response) : ℕ :=
  estimate_tokens r.answer
    + (r.objections.map estimate_tokens).sum
    + (r.missing.map estimate_tokens).sum
    + (r.edits.map estimate_tokens).sum

/-! ### context/budget.py : context budget -/

/-- Embedding of `ContextBudget` (budget.py): the field record; the
`__post_init__` validation is `ContextBudget.post_init`. -/
structure ContextBudget where
  max_tokens : ℤ
  used_tokens : ℤ := 0
  round_usage : List ℤ := []
deriving DecidableEq

/-- Embedding of `ContextBudget.__post_init__` (budget.py lines 23-31). -/
def ContextBudget.post_init (b : ContextBudget) : Except String ContextBudget :=
  if b.max_tokens < 1 then .error "max_tokens must be >= 1"
  else if b.used_tokens < 0 then .error "used_tokens must be >= 0"
  else if b.max_tokens < b.used_tokens then .error "used_tokens exceeds max_tokens"
  else .ok b

/-- Python `ContextBudget(...)`: build the record, run the validation. -/
def mkContextBudget (max_tokens used_tokens : ℤ) (round_usage : List ℤ) :
    Except String ContextBudget :=
  ContextBudget.post_init
    { max_tokens := max_tokens, used_tokens := used_tokens, round_usage := round_usage }

/-- Embedding of `track_usage` (budget.py lines 34-66).  The Python
`while len(...) <= round_idx: append(0)` loop is the zero-padding; the
non-negative `round_idx` of every call site is modelled by `ℕ`. -/
def track_usage (budget : ContextBudget) (tokens : ℤ) (round_idx : ℕ) :
    Except String ContextBudget :=
  if tokens < 0 then .error "tokens must be >= 0"
  else
    let extended := budget.round_usage
      ++ List.replicate (round_idx + 1 - budget.round_usage.length) 0
    let new_round_usage := extended.set round_idx (extended.getD round_idx 0 + tokens)
    let new_used_tokens := new_round_usage.sum
    mkContextBudget budget.max_tokens new_used_tokens new_round_usage

/-- Embedding of `would_exceed_budget` (budget.py lines 69-83). -/
def would_exceed_budget (budget : ContextBudget) (additional_tokens : ℤ) :
    Except String Bool :=
  if additional_tokens < 0 then .error "additional_tokens must be >= 0"
  else .ok (decide (budget.max_tokens < budget.used_tokens + additional_tokens))

/-! ### context/truncation.py : oldest-round eviction -/

/-- The positions (ascending) holding round `r` — the value list
`rounds_map[r]` built by the grouping loop in `truncate_oldest_rounds`
(indices are appended in enumeration order, hence ascending). -/
def roundIndicesOf (round_indices : List ℤ) (r : ℤ) : List ℕ :=
  (List.range round_indices.length).filter fun i => decide (round_indices.getD i 0 = r)

/-- Total estimated tokens of the responses belonging to round `r` — the
amount the source subtracts from `current_tokens` when round `r` is
removed (`for idx in removed_indices: current_tokens -= token_counts[idx]`). -/
def roundTokens (token_counts : List ℕ) (round_indices : List ℤ) (r : ℤ) : ℕ :=
  ((roundIndicesOf round_indices r).map fun i => token_counts.getD i 0).sum

/-- The `while current_tokens > target_tokens and len(included_rounds) > 1`
loop.  The source keeps `included_rounds` sorted descending and pops its
last element (the minimum); we keep the same list sorted ascending and pop
the head — the same sequence of removals.  The `oldest_round == max_round`
break is kept verbatim (it is unreachable for a duplicate-free descending
list of length > 1, which the proofs confirm). -/
def popLoopAsc (rt : ℤ → ℕ) (target_tokens max_round : ℤ) : List ℤ → ℤ → List ℤ
  | [], _ => []
  | [r], _ => [r]
  | r :: r2 :: rest, current =>
    if target_tokens < current then
      if r = max_round then r :: r2 :: rest
      else popLoopAsc rt target_tokens max_round (r2 :: rest) (current - (rt r : ℤ))
    else r :: r2 :: rest

/-- The rounds surviving truncation: all distinct rounds (`rounds_map`
keys), oldest-first removal while over target.  `max(round_indices)` of
the nonempty source input is `maximum.getD 0`. -/
def keptRounds (responses : List Response) (round_indices : List ℤ)
    (target_tokens : ℤ) : List ℤ :=
  let max_round := round_indices.maximum.getD 0
  let token_counts := responses.map count_response_tokens
  let keysAsc := List.insertionSort (fun a b => a ≤ b) round_indices.dedup
  popLoopAsc (roundTokens token_counts round_indices) target_tokens max_round
    keysAsc ((token_counts.sum : ℤ))

/-- Embedding of `truncate_oldest_rounds` (truncation.py lines 10-80):
length-mismatch error, empty input shortcut, group by round, drop oldest
rounds while over target (never the most recent), then rebuild the
surviving responses in original order (`included_indices` concatenated per
surviving round and sorted ascending).  The `budget` argument is unused by
the source's logic, as here. -/
def truncate_oldest_rounds (responses : List Response) (round_indices : List ℤ)
    (_budget : ContextBudget) (target_tokens : ℤ) : Except String (List Response) :=
  if responses.length ≠ round_indices.length then
    .error "responses and round_indices must have same length"
  else if responses.isEmpty then .ok []
  else
    let included_rounds := keptRounds responses round_indices target_tokens
    let included_indices := List.insertionSort (fun a b => a ≤ b)
      (included_rounds.flatMap (roundIndicesOf round_indices))
    .ok (included_indices.map fun i => responses.getD i default)

/-! ### retry/classifier.py and retry/executor.py -/

/-- The payload of a Python `ProviderError`: message, optional provider,
optional error code. -/
structure ProviderErrorData where
  message : String := ""
  provider : Option String := none
  code : Option String := none
deriving DecidableEq

/-- Embedding of `RETRYABLE_CODES` (classifier.py). -/
def RETRYABLE_CODES : List String :=
  ["timeout", "network", "rate_limit", "service_unavailable"]

/-- Embedding of `NON_RETRYABLE_CODES` (classifier.py). -/
def NON_RETRYABLE_CODES : List String := ["auth", "config", "api_error"]

/-- Embedding of `is_retryable` (classifier.py lines 27-40): `False` for a
missing code, otherwise membership in `RETRYABLE_CODES`. -/
def is_retryable (e : ProviderErrorData) : Bool :=
  match e.code with
  | none => false
  | some c => RETRYABLE_CODES.contains c

/-- Embedding of `get_retry_after` (classifier.py): always `None` in v1. -/
def get_retry_after (_ : ProviderErrorData) : Option ℚ := none

/-- The `for attempt in range(total_attempts)` loop of `execute_with_retry`
(executor.py lines 45-136).  The callable `fn` is modelled as a function
from the 0-based invocation number to that invocation's outcome; the
result carries the number of invocations performed.  `fuel` is the number
of remaining loop iterations (initially `max_retries + 1`); the fuel-0
case is the unreachable fall-through after the loop (Python raises the
stored error or `RuntimeError` there). -/
def retryLoop {α : Type} (fn : ℕ → Except ProviderErrorData α) (max_retries : ℕ) :
    (attempt fuel : ℕ) → Except ProviderErrorData α × ℕ
  | _, 0 => (.error { message := "Unexpected state in retry logic" }, 0)
  | attempt, fuel + 1 =>
    match fn attempt with
    | .ok v => (.ok v, 1)
    | .error e =>
      if !is_retryable e then (.error e, 1)
      else if max_retries ≤ attempt then (.error e, 1)
      else
        let r := retryLoop fn max_retries (attempt + 1) fuel
        (r.1, r.2 + 1)

/-- Embedding of `execute_with_retry` (executor.py): run the attempt loop
from attempt 0 with `total_attempts = max_retries + 1` iterations; the
sleeping between attempts does not affect the value semantics. -/
def execute_with_retry {α : Type} (fn : ℕ → Except ProviderErrorData α)
    (max_retries : ℕ) : Except ProviderErrorData α × ℕ :=
  retryLoop fn max_retries 0 (max_retries + 1)

/-! ### prompts/templates.py -/

/-- Embedding of `PromptTemplate` (templates.py). -/
structure PromptTemplate where
  system : String
  user : String
deriving DecidableEq

/-- Embedding of `participant_prompt` (templates.py). -/
def participant_prompt (user_prompt : String) : PromptTemplate :=
  { system := "You are a participant model in a consensus protocol. "
      ++ "Your role is to provide the best possible answer to the user prompt.\n\n"
      ++ "You must respond with a strict JSON object containing:\n"
      ++ "- answer: string (required) - Your complete answer to the prompt\n"
      ++ "- confidence: float (optional) - Your confidence level from 0 to 1\n\n"
      ++ "Do not include any text outside the JSON object."
    user := user_prompt }

/-- Embedding of `critique_prompt` (templates.py). -/
def critique_prompt (candidate_answer digest : String) : PromptTemplate :=
  { system := "You are a participant model critiquing a candidate answer. "
      ++ "Your role is to evaluate the candidate answer and provide constructive feedback.\n\n"
      ++ "You must respond with a strict JSON object containing:\n"
      ++ "- approve: bool (required) - Whether you approve this answer\n"
      ++ "- critical: bool (required) - Whether you have critical objections\n"
      ++ "- objections: list of strings (required) - Specific objections or concerns\n"
      ++ "- missing: list of strings (required) - Important missing information\n"
      ++ "- edits: list of strings (required) - Suggested improvements or edits\n"
      ++ "- confidence: float (optional) - Your confidence level from 0 to 1\n\n"
      ++ "Critical criteria:\n"
      ++ "- Mark critical=true ONLY for factual errors or advice that could cause harm\n"
      ++ "- Do NOT mark critical for style issues or minor omissions\n\n"
      ++ "Do not include any text outside the JSON object."
    user := "Candidate answer:\n" ++ candidate_answer ++ "\n\nDigest:\n" ++ digest }

/-- Embedding of `mediator_synthesis_prompt` (templates.py). -/
def mediator_synthesis_prompt (inputs : String) : PromptTemplate :=
  { system := "You are the mediator in a consensus protocol. "
      ++ "Your role is to synthesize a candidate answer based on all participant responses.\n\n"
      ++ "You must respond with a strict JSON object containing:\n"
      ++ "- candidate_answer: string (required) - The synthesized answer\n"
      ++ "- rationale: string (required) - Explanation of your synthesis approach\n"
      ++ "- common_points: list of strings (required) - Points of agreement among participants\n"
      ++ "- objections: list of strings (required) - Conflicting viewpoints or concerns\n"
      ++ "- missing: list of strings (required) - Information gaps identified\n"
      ++ "- suggested_edits: list of strings (required) - Potential improvements\n\n"
      ++ "Do not include any text outside the JSON object."
    user := inputs }

/-- Embedding of `mediator_update_prompt` (templates.py). -/
def mediator_update_prompt (candidate_answer critiques : String) : PromptTemplate :=
  { system := "You are the mediator in a consensus protocol. "
      ++ "Your role is to update the candidate answer based on participant critiques.\n\n"
      ++ "You must respond with a strict JSON object containing:\n"
      ++ "- candidate_answer: string (required) - The updated answer incorporating feedback\n"
      ++ "- rationale: string (required) - Explanation of how you addressed critiques\n\n"
      ++ "Do not include any text outside the JSON object."
    user := "Candidate answer:\n" ++ candidate_answer ++ "\n\nCritiques:\n" ++ critiques }

/-! ### consensus/runner.py : orchestration

Provider calls cross the external provider boundary; they are modelled by
oracles: `providers` maps a model name to its provider's
`create_chat_completion` (a `dict.get`, `none` for a missing entry), the
mediator's provider is a separate function, and `jsonParse` models
`json.loads(raw)` followed by `.get("candidate_answer")`/`.get("rationale")`
(`none` for a `JSONDecodeError`).  Logging is value-irrelevant and dropped. -/

/-- A failure raised by a provider call: the Python `ProviderError` or
`ParseError` (both caught by collectors, both re-raised by mediator calls). -/
inductive CallError where
  | provider (e : ProviderErrorData)
  | parse (message : String) (raw : Option String)
deriving DecidableEq

/-- The fatal errors `run_consensus` can propagate. -/
inductive RunError where
  | round (e : RoundError)
  | mediatorFailure (e : CallError)
  | valueError (msg : String)
deriving DecidableEq

/-- Python `repr` of an optional bool, as interpolated by
`_format_critiques_for_mediator`. -/
def pyBoolOptRepr : Option Bool → String
  | none => "None"
  | some true => "True"
  | some false => "False"

/-- Embedding of `_format_digest` (runner.py lines 46-77). -/
def format_digest (digest : Digest) : String :=
  let lines :=
    (if digest.common_points.isEmpty then [] else
      "Common points:" :: digest.common_points.map fun p => "  - " ++ p)
    ++ (if digest.objections.isEmpty then [] else
      "Objections:" :: digest.objections.map fun o => "  - " ++ o)
    ++ (if digest.missing.isEmpty then [] else
      "Missing:" :: digest.missing.map fun m => "  - " ++ m)
    ++ (if digest.suggested_edits.isEmpty then [] else
      "Suggested edits:" :: digest.suggested_edits.map fun e => "  - " ++ e)
  if lines.isEmpty then "(No digest available)" else String.intercalate "\n" lines

/-- Embedding of `_format_responses_for_mediator` (runner.py lines 80-94). -/
def format_responses_for_mediator (responses : List Response) : String :=
  String.intercalate "\n" (responses.enum.flatMap fun p =>
    ["Participant " ++ toString (p.1 + 1) ++ " (" ++ p.2.model_name ++ "):",
      p.2.answer, ""])

/-- Embedding of `_format_critiques_for_mediator` (runner.py lines 97-118). -/
def format_critiques_for_mediator (critiques : List Response) : String :=
  String.intercalate "\n" (critiques.flatMap fun critique =>
    ["Critique from " ++ critique.model_name ++ ":",
      "  Approve: " ++ pyBoolOptRepr critique.approve,
      "  Critical: " ++ pyBoolOptRepr critique.critical]
    ++ (if critique.objections.isEmpty then [] else
      ["  Objections: " ++ String.intercalate ", " critique.objections])
    ++ (if critique.missing.isEmpty then [] else
      ["  Missing: " ++ String.intercalate ", " critique.missing])
    ++ (if critique.edits.isEmpty then [] else
      ["  Suggested edits: " ++ String.intercalate ", " critique.edits])
    ++ [""])

/-- Python `sorted(models, key=lambda m: m.name)`. -/
def sortModelsByName (models : List ModelConfig) : List ModelConfig :=
  List.insertionSort (fun a b => pyStrLe a.name b.name = true) models

/-- Embedding of `_collect_round1_responses` (runner.py lines 350-408):
name-sorted iteration, missing provider or failing call recorded in
`failed_models`, successes appended in order. -/
def collect_round1_responses
    (providers : String → Option (PromptRequest → Except CallError Response))
    (prompt : String) (config : RunConfig) : List Response × List String :=
  (sortModelsByName config.models).foldl
    (fun acc model =>
      match providers model.name with
      | none => (acc.1, acc.2 ++ [model.name])
      | some provider =>
        let template := participant_prompt prompt
        let request : PromptRequest :=
          { user_prompt := template.user, system_prompt := template.system,
            round_index := 0, role := Role.participant }
        match provider request with
        | .ok response => (acc.1 ++ [response], acc.2)
        | .error _ => (acc.1, acc.2 ++ [model.name]))
    ([], [])

/-- Embedding of `_collect_critique_responses` (runner.py lines 482-555). -/
def collect_critique_responses
    (providers : String → Option (PromptRequest → Except CallError Response))
    (prompt candidate_answer : String) (digest : Digest) (config : RunConfig)
    (round_index : ℤ) : List Response × List String :=
  let digest_str := format_digest digest
  (sortModelsByName config.models).foldl
    (fun acc model =>
      match providers model.name with
      | none => (acc.1, acc.2 ++ [model.name])
      | some provider =>
        let template := critique_prompt candidate_answer digest_str
        let request : PromptRequest :=
          { user_prompt := template.user, system_prompt := template.system,
            round_index := round_index, role := Role.participant,
            input_digest := some digest, candidate_answer := some candidate_answer }
        match provider request with
        | .ok response => (acc.1 ++ [response], acc.2)
        | .error _ => (acc.1, acc.2 ++ [model.name]))
    ([], [])

/-- Python `response.raw or response.answer` (empty string is falsy). -/
def rawOrAnswer (response : Response) : String :=
  match response.raw with
  | some r => if r.isEmpty then response.answer else r
  | none => response.answer

/-- Embedding of `_synthesize_candidate` (runner.py lines 411-479): the
mediator call plus the JSON-parse-or-fallback assembly of the new
`MediatorState`; a call failure is re-raised. -/
def synthesize_candidate
    (mediatorCall : PromptRequest → Except CallError Response)
    (jsonParse : String → Option (Option String × Option String))
    (prompt : String) (responses : List Response) :
    Except CallError MediatorState :=
  let inputs := format_responses_for_mediator responses
  let template := mediator_synthesis_prompt inputs
  let request : PromptRequest :=
    { user_prompt := template.user, system_prompt := template.system,
      round_index := 0, role := Role.mediator }
  match mediatorCall request with
  | .error e => .error e
  | .ok response =>
    let parsed := jsonParse (rawOrAnswer response)
    let candidate_answer :=
      match parsed with
      | none => response.answer
      | some (candOpt, _) => candOpt.getD response.answer
    let rationale :=
      match parsed with
      | none => ""
      | some (_, ratOpt) => ratOpt.getD ""
    .ok { candidate_answer := candidate_answer, rationale := rationale,
          approval_count := 0, critical_objections := [],
          disagreement_summary := none }

/-- Embedding of `_update_candidate` (runner.py lines 558-626); the digest
argument is carried but unused by the source body, as here. -/
def update_candidate
    (mediatorCall : PromptRequest → Except CallError Response)
    (jsonParse : String → Option (Option String × Option String))
    (previous_candidate : String) (critiques : List Response)
    (_digest : Digest) : Except CallError MediatorState :=
  let critiques_str := format_critiques_for_mediator critiques
  let template := mediator_update_prompt previous_candidate critiques_str
  let request : PromptRequest :=
    { user_prompt := template.user, system_prompt := template.system,
      round_index := 1, role := Role.mediator,
      candidate_answer := some previous_candidate }
  match mediatorCall request with
  | .error e => .error e
  | .ok response =>
    let parsed := jsonParse (rawOrAnswer response)
    let candidate_answer :=
      match parsed with
      | none => response.answer
      | some (candOpt, _) => candOpt.getD response.answer
    let rationale :=
      match parsed with
      | none => ""
      | some (_, ratOpt) => ratOpt.getD ""
    .ok { candidate_answer := candidate_answer, rationale := rationale,
          approval_count := 0, critical_objections := [],
          disagreement_summary := none }

/-- Embedding of `_analyze_critiques` (runner.py lines 629-649): Python
truthiness makes `approve`/`critical` of `None` count as false, and an
empty objections list suppresses the critical extension. -/
def analyze_critiques (critiques : List Response) : ℤ × List String :=
  critiques.foldl
    (fun acc critique =>
      let ac := if critique.approve.getD false then acc.1 + 1 else acc.1
      let co := if critique.critical.getD false && !critique.objections.isEmpty
        then acc.2 ++ critique.objections else acc.2
      (ac, co))
    (0, [])

/-- Embedding of `_calculate_confidence` (runner.py lines 652-684). -/
def calculate_confidence (approval_count : ℤ) (total_participants : ℕ)
    (critical_count : ℕ) (approval_ratio : ℚ) : String :=
  if total_participants = 0 then "LOW"
  else
    let actual_ratio : ℚ := (approval_count : ℚ) / (total_participants : ℚ)
    if approval_ratio ≤ actual_ratio ∧ critical_count = 0 then "HIGH"
    else if (1/2 : ℚ) ≤ actual_ratio ∧ critical_count ≤ 1 then "MEDIUM"
    else "LOW"

/-- Embedding of `_build_disagreement_summary` (runner.py lines 687-753). -/
def build_disagreement_summary (critiques : List Response)
    (critical_objections : List String) (approval_count : ℤ)
    (total_participants : ℕ) (approval_ratio : ℚ) : String :=
  let confidence := calculate_confidence approval_count total_participants
    critical_objections.length approval_ratio
  let non_approving := critiques.filter fun c => !(c.approve.getD false)
  let all_objections := non_approving.flatMap fun c => c.objections
  let all_missing := non_approving.flatMap fun c => c.missing
  let lines := ["---",
    "Consensus: NOT REACHED (" ++ toString approval_count ++ "/"
      ++ toString total_participants ++ " approvals, "
      ++ toString critical_objections.length ++ " critical objection"
      ++ (if critical_objections.length ≠ 1 then "s" else "") ++ ")",
    "Confidence: " ++ confidence]
  let has_issues := !critical_objections.isEmpty || !all_objections.isEmpty
    || !all_missing.isEmpty
  let lines := if has_issues then
      lines ++ ["", "Unresolved Issues:"]
        ++ (critical_objections.take 2).map (fun o => "- Critical: " ++ o)
        ++ (all_objections.take (3 - min critical_objections.length 2)).map
            (fun o => "- Objection: " ++ o)
        ++ (all_missing.take 2).map (fun m => "- Missing: " ++ m)
    else lines
  String.intercalate "\n" lines

/-- The mutable locals of the `run_consensus` critique loop. -/
structure RunnerState where
  budget : Option ContextBudget
  digest : Digest
  mediator_state : MediatorState
  all_responses : List Response
  all_failed_models : List String
  round_indices : List ℤ
  previous_candidate : Option String
  current_round : ℤ
deriving DecidableEq

/-- One iteration of the `while current_round < config.max_rounds` body
(runner.py lines 205-318).  Returns the updated state and whether the
stop-condition `break` fired.  The pre-collection truncation is computed
(and can propagate a `ValueError`) exactly as in the source, where its
result `responses_for_mediator` is used for logging only. -/
def consensusStep
    (providers : String → Option (PromptRequest → Except CallError Response))
    (mediatorCall : PromptRequest → Except CallError Response)
    (jsonParse : String → Option (Option String × Option String))
    (prompt : String) (config : RunConfig) (st : RunnerState) :
    Except RunError (RunnerState × Bool) :=
  let current_round := st.current_round + 1
  let truncationCheck : Except RunError Unit :=
    match st.budget with
    | none => .ok ()
    | some budget =>
      let estimated_new_tokens : ℤ := ((st.all_responses.map count_response_tokens).sum : ℤ)
      match would_exceed_budget budget estimated_new_tokens with
      | .error msg => .error (RunError.valueError msg)
      | .ok exceeds =>
        if exceeds then
          let target_tokens := budget.max_tokens - budget.used_tokens
          match truncate_oldest_rounds st.all_responses st.round_indices budget
              target_tokens with
          | .error msg => .error (RunError.valueError msg)
          | .ok _responses_for_mediator => .ok ()
        else .ok ()
  match truncationCheck with
  | .error e => .error e
  | .ok _ =>
    match collect_critique_responses providers prompt
        st.mediator_state.candidate_answer st.digest config current_round with
    | (critiques, failed_models_critique) =>
      match check_round_responses critiques config current_round with
      | .error e => .error (RunError.round e)
      | .ok _ =>
        let all_failed := st.all_failed_models ++ failed_models_critique
        let budgetStep : Except RunError (Option ContextBudget) :=
          match st.budget with
          | none => .ok none
          | some budget =>
            let round_tokens : ℤ := ((critiques.map count_response_tokens).sum : ℤ)
            match track_usage budget round_tokens (current_round - 1).toNat with
            | .error msg => .error (RunError.valueError msg)
            | .ok b => .ok (some b)
        match budgetStep with
        | .error e => .error e
        | .ok budget2 =>
          match analyze_critiques critiques with
          | (approval_count, critical_objections) =>
            let digest2 := update_digest_from_critiques st.digest critiques
            match should_stop current_round approval_count critical_objections
                st.previous_candidate st.mediator_state.candidate_answer
                critiques config with
            | (stop, reason) =>
              if stop then
                .ok ({ st with
                  budget := budget2
                  digest := digest2
                  mediator_state :=
                    { candidate_answer := st.mediator_state.candidate_answer
                      rationale := st.mediator_state.rationale
                      approval_count := approval_count
                      critical_objections := critical_objections
                      disagreement_summary :=
                        if reason ≠ "consensus_reached" then
                          some (build_disagreement_summary critiques
                            critical_objections approval_count
                            config.models.length config.approval_ratio)
                        else none }
                  all_failed_models := all_failed
                  current_round := current_round }, true)
              else
                let previous_candidate := st.mediator_state.candidate_answer
                match update_candidate mediatorCall jsonParse previous_candidate
                    critiques st.digest with
                | .error e => .error (RunError.mediatorFailure e)
                | .ok ms1 =>
                  .ok ({ budget := budget2
                         digest := digest2
                         mediator_state :=
                          { candidate_answer := ms1.candidate_answer
                            rationale := ms1.rationale
                            approval_count := approval_count
                            critical_objections := critical_objections
                            disagreement_summary := none }
                         all_responses := st.all_responses ++ critiques
                         all_failed_models := all_failed
                         round_indices := st.round_indices
                          ++ List.replicate critiques.length (current_round - 1)
                         previous_candidate := some previous_candidate
                         current_round := current_round }, false)

/-- The critique loop; `fuel` bounds the iteration count (instantiated
with `max_rounds`, which exceeds the number of remaining rounds; the
`current_round < max_rounds` guard is the real loop condition). -/
def consensusLoop
    (providers : String → Option (PromptRequest → Except CallError Response))
    (mediatorCall : PromptRequest → Except CallError Response)
    (jsonParse : String → Option (Option String × Option String))
    (prompt : String) (config : RunConfig) :
    ℕ → RunnerState → Except RunError RunnerState
  | 0, st => .ok st
  | fuel + 1, st =>
    if st.current_round < config.max_rounds then
      match consensusStep providers mediatorCall jsonParse prompt config st with
      | .error e => .error e
      | .ok (st2, stopped) =>
        if stopped then .ok st2
        else consensusLoop providers mediatorCall jsonParse prompt config fuel st2
    else .ok st

/-- Budget initialization (runner.py lines 161-164). -/
def initBudget (config : RunConfig) : Except RunError (Option ContextBudget) :=
  match config.max_context_tokens with
  | none => .ok none
  | some mct =>
    match mkContextBudget mct 0 [] with
    | .error msg => .error (RunError.valueError msg)
    | .ok b => .ok (some b)

/-- Round-1 budget tracking (runner.py lines 181-188). -/
def trackRound1 (budget : Option ContextBudget) (participant_responses : List Response) :
    Except RunError (Option ContextBudget) :=
  match budget with
  | none => .ok none
  | some b =>
    let round_tokens : ℤ := ((participant_responses.map count_response_tokens).sum : ℤ)
    match track_usage b round_tokens 0 with
    | .error msg => .error (RunError.valueError msg)
    | .ok b2 => .ok (some b2)

/-- Everything `run_consensus` does before assembling the final
`ConsensusResult` (runner.py lines 158-318). -/
def runPipeline
    (providers : String → Option (PromptRequest → Except CallError Response))
    (mediatorCall : PromptRequest → Except CallError Response)
    (jsonParse : String → Option (Option String × Option String))
    (prompt : String) (config : RunConfig) : Except RunError RunnerState :=
  match initBudget config with
  | .error e => .error e
  | .ok budget0 =>
    match collect_round1_responses providers prompt config with
    | (participant_responses, failed_models_r1) =>
      match check_round_responses participant_responses config 1 with
      | .error e => .error (RunError.round e)
      | .ok _ =>
        match trackRound1 budget0 participant_responses with
        | .error e => .error e
        | .ok budget1 =>
          let digest := build_digest participant_responses
          match synthesize_candidate mediatorCall jsonParse prompt
              participant_responses with
          | .error e => .error (RunError.mediatorFailure e)
          | .ok mediator_state =>
            consensusLoop providers mediatorCall jsonParse prompt config
              config.max_rounds.toNat
              { budget := budget1
                digest := digest
                mediator_state := mediator_state
                all_responses := participant_responses
                all_failed_models := failed_models_r1
                round_indices := List.replicate participant_responses.length 0
                previous_candidate := none
                current_round := 1 }

/-- The final result assembly of `run_consensus` (runner.py lines
320-347); note `exit_code = ExitCode.SUCCESS if consensus_reached else
ExitCode.SUCCESS` transcribed verbatim. -/
def finalize_result (prompt : String) (config : RunConfig)
    (no_consensus_summary : Bool) (st : RunnerState) : ConsensusResult :=
  let consensus_reached :=
    decide (config.quorum ≤ st.mediator_state.approval_count)
      && decide (st.mediator_state.critical_objections.length = 0)
  let output :=
    match st.mediator_state.disagreement_summary with
    | some ds =>
      if !no_consensus_summary && !ds.isEmpty then
        st.mediator_state.candidate_answer ++ "\n\n" ++ ds
      else st.mediator_state.candidate_answer
    | none => st.mediator_state.candidate_answer
  let exit_code := if consensus_reached then ExitCode.success else ExitCode.success
  { output := output
    exit_code := exit_code
    consensus_reached := consensus_reached
    rounds_completed := st.current_round
    mediator_state := some st.mediator_state
    responses := st.all_responses
    digest := some st.digest
    metadata :=
      { prompt := prompt
        participants := config.models.length
        quorum := config.quorum
        failed_models := List.insertionSort (fun a b => pyStrLe a b = true)
          st.all_failed_models.dedup } }

/-- Embedding of `run_consensus` (runner.py lines 136-347). -/
def run_consensus
    (providers : String → Option (PromptRequest → Except CallError Response))
    (mediatorCall : PromptRequest → Except CallError Response)
    (jsonParse : String → Option (Option String × Option String))
    (prompt : String) (config : RunConfig) (no_consensus_summary : Bool) :
    Except RunError ConsensusResult :=
  match runPipeline providers mediatorCall jsonParse prompt config with
  | .error e => .error e
  | .ok st => .ok (finalize_result prompt config no_consensus_summary st)

/-! ### Concrete inputs for instantiating theorems -/

/-- A run configuration whose mediator name collides with a participant
name; every other `__post_init__` condition holds. -/
def overlapConfig : RunConfig :=
  { models := [
      { name := "alpha", provider := "mock", model_id := "m-a" },
      { name := "beta", provider := "mock", model_id := "m-b" }]
    mediator := { name := "alpha", provider := "mock", model_id := "m-x" }
    max_rounds := 1
    approval_ratio := 1
    change_threshold := 0 }

/-- A valid run configuration with `approval_ratio = 0`, hence quorum 0. -/
def zeroRatioConfig : RunConfig :=
  { models := [
      { name := "alpha", provider := "mock", model_id := "m-a" },
      { name := "beta", provider := "mock", model_id := "m-b" }]
    mediator := { name := "med", provider := "mock", model_id := "m-m" }
    max_rounds := 1
    approval_ratio := 0
    change_threshold := 0 }

/-- A hand-built `ContextBudget` that passes `__post_init__` yet holds a
negative per-round entry. -/
def negUsageBudget : ContextBudget :=
  { max_tokens := 10, used_tokens := 0, round_usage := [-5] }

/-- A timeout-kind provider error (retryable). -/
def demoTimeoutErr : ProviderErrorData := { message := "t", code := some "timeout" }

/-- An auth-kind provider error (not retryable). -/
def demoAuthErr : ProviderErrorData := { message := "a", code := some "auth" }

/-- A callable failing with timeouts on invocations 0 and 1, succeeding on
invocation 2. -/
def demoFlaky : ℕ → Except ProviderErrorData ℕ :=
  fun n => if n < 2 then .error demoTimeoutErr else .ok 7

/-- A callable always failing with an auth error. -/
def demoAuthFn : ℕ → Except ProviderErrorData ℕ := fun _ => .error demoAuthErr

/-- A callable always failing with a timeout error. -/
def demoAlwaysTimeout : ℕ → Except ProviderErrorData ℕ :=
  fun _ => .error demoTimeoutErr

/-- A canned round-1 answer from participant "alpha". -/
def respA : Response := { model_name := "alpha", answer := "Paris." }

/-- A canned round-1 answer from participant "beta". -/
def respB : Response := { model_name := "beta", answer := "Paris." }

/-- A canned mediator response. -/
def medResp : Response := { model_name := "med", answer := "Paris is the capital." }

/-- Providers for the demo participants; unknown names are absent. -/
def demoProviders : String → Option (PromptRequest → Except CallError Response) :=
  fun name =>
    if name = "alpha" then some fun _ => .ok respA
    else if name = "beta" then some fun _ => .ok respB
    else none

/-- A mediator provider always answering with `medResp`. -/
def demoMediatorCall : PromptRequest → Except CallError Response := fun _ => .ok medResp

/-- A JSON oracle on which every parse fails (the runner then falls back
to the raw answer). -/
def demoJsonParse : String → Option (Option String × Option String) := fun _ => none

end Aicx

namespace Aicx

/-! ### Lemmas: DP rows compute `levSpec` -/

theorem levSpec_nil_left (bs : List String) : levSpec [] bs = bs.length := by
  cases bs <;> simp [levSpec]

theorem levSpec_nil_right (as : List String) : levSpec as [] = as.length := by
  cases as <;> simp [levSpec]

theorem levSpec_cons_cons (a b : String) (as bs : List String) :
    levSpec (a :: as) (b :: bs) =
      min (levSpec as (b :: bs) + 1)
        (min (levSpec (a :: as) bs + 1) (levSpec as bs + (if a = b then 0 else 1))) := by
  rw [levSpec]

theorem levNextRowAux_spec (c1 : String) (cs : List String) :
    ∀ rq rp : List String,
      levNextRowAux c1 (levSpec (c1 :: rp) rq)
          (levSpec rp rq :: specRowAux rp rq cs) cs
        = specRowAux (c1 :: rp) rq cs := by
  induction cs with
  | nil => intro rq rp; simp [levNextRowAux, specRowAux]
  | cons c2 cs ih =>
    intro rq rp
    have hv :
        min (levSpec rp (c2 :: rq) + 1)
            (min (levSpec (c1 :: rp) rq + 1)
              (levSpec rp rq + (if c1 = c2 then 0 else 1)))
          = levSpec (c1 :: rp) (c2 :: rq) :=
      (levSpec_cons_cons c1 c2 rp rq).symm
    simp only [specRowAux, levNextRowAux]
    rw [hv, ih (c2 :: rq) rp]

theorem specRowAux_nil_rp (cs : List String) :
    ∀ rq : List String,
      specRowAux [] rq cs = (List.range cs.length).map (fun j => rq.length + 1 + j) := by
  induction cs with
  | nil => intro rq; simp [specRowAux]
  | cons c cs ih =>
    intro rq
    simp only [specRowAux, List.length_cons, levSpec_nil_left, List.length_cons]
    rw [ih (c :: rq)]
    rw [List.range_succ_eq_map]
    simp [List.map_map, Function.comp]
    intro a _
    omega

theorem specRow_nil (s2 : List String) :
    specRow [] s2 = List.range (s2.length + 1) := by
  unfold specRow
  rw [specRowAux_nil_rp s2 [], List.range_succ_eq_map]
  simp [levSpec_nil_left]
  intro a _
  omega

theorem levLoop_spec (s2 : List String) :
    ∀ (rest rp : List String),
      levLoop s2 rest (specRow rp s2) rp.length = specRow (rest.reverse ++ rp) s2 := by
  intro rest
  induction rest with
  | nil => intro rp; simp [levLoop]
  | cons c rest ih =>
    intro rp
    have hrow : levNextRow c rp.length (specRow rp s2) s2 = specRow (c :: rp) s2 := by
      unfold levNextRow specRow
      have h0 : rp.length + 1 = levSpec (c :: rp) [] := by
        simp [levSpec_nil_right]
      rw [h0]
      rw [levNextRowAux_spec c s2 [] rp]
    show levLoop s2 rest (levNextRow c rp.length (specRow rp s2) s2) (rp.length + 1)
        = specRow ((c :: rest).reverse ++ rp) s2
    rw [hrow]
    have hlen : rp.length + 1 = (c :: rp).length := by simp
    rw [hlen, ih (c :: rp)]
    congr 1
    simp [List.reverse_cons, List.append_assoc]

theorem specRowAux_getD (cs : List String) :
    ∀ rq rp : List String, cs ≠ [] →
      (specRowAux rp rq cs).getD (cs.length - 1) 0 = levSpec rp (cs.reverse ++ rq) := by
  induction cs with
  | nil => intro rq rp h; exact absurd rfl h
  | cons c cs ih =>
    intro rq rp _
    cases cs with
    | nil => simp [specRowAux]
    | cons c2 cs2 =>
      have hne : c2 :: cs2 ≠ ([] : List String) := by simp
      have hlen : (c :: c2 :: cs2).length - 1 = (c2 :: cs2).length := by simp
      rw [hlen]
      have hstep : (specRowAux rp rq (c :: c2 :: cs2)).getD (c2 :: cs2).length 0
          = (specRowAux rp (c :: rq) (c2 :: cs2)).getD ((c2 :: cs2).length - 1) 0 := by
        simp only [specRowAux, List.length_cons, Nat.add_sub_cancel]
        simp
      rw [hstep, ih (c :: rq) rp hne]
      congr 1
      simp [List.reverse_cons, List.append_assoc]

theorem specRow_getD (rp s2 : List String) :
    (specRow rp s2).getD s2.length 0 = levSpec rp s2.reverse := by
  cases s2 with
  | nil => simp [specRow, specRowAux]
  | cons c cs =>
    unfold specRow
    have hlen : (c :: cs).length = cs.length + 1 := by simp
    rw [hlen]
    have hgd : ((levSpec rp []) :: specRowAux rp [] (c :: cs)).getD (cs.length + 1) 0
        = (specRowAux rp [] (c :: cs)).getD cs.length 0 := by simp
    rw [hgd]
    have := specRowAux_getD (c :: cs) [] rp (by simp)
    simp only [List.length_cons, Nat.add_sub_cancel] at this
    rw [this]
    simp

/-- The rolling-row dynamic program of the source, run without the length
swap, computes `levSpec` of the reversed sequences. -/
theorem levLoop_getD (s1 s2 : List String) :
    (levLoop s2 s1 (List.range (s2.length + 1)) 0).getD s2.length 0
      = levSpec s1.reverse s2.reverse := by
  have h0 : List.range (s2.length + 1) = specRow [] s2 := (specRow_nil s2).symm
  rw [h0]
  have h1 := levLoop_spec s2 s1 []
  simp only [List.length_nil] at h1
  rw [h1, List.append_nil]
  exact specRow_getD s1.reverse s2

theorem levSpec_self (s : List String) : levSpec s s = 0 := by
  induction s with
  | nil => simp [levSpec]
  | cons a as ih =>
    rw [levSpec_cons_cons]
    simp [ih]

theorem levSpec_comm (a b : List String) : levSpec a b = levSpec b a := by
  have H : ∀ n a b, List.length a + List.length b ≤ n → levSpec a b = levSpec b a := by
    intro n
    induction n with
    | zero =>
      intro a b hab
      have ha : a = [] := List.length_eq_zero.mp (by omega)
      have hb : b = [] := List.length_eq_zero.mp (by omega)
      rw [ha, hb]
    | succ n ih =>
      intro a b hab
      match a, b with
      | [], b => rw [levSpec_nil_left, levSpec_nil_right]
      | a :: as, [] => rw [levSpec_nil_left, levSpec_nil_right]
      | a :: as, b :: bs =>
        rw [levSpec_cons_cons, levSpec_cons_cons]
        have h1 : levSpec as (b :: bs) = levSpec (b :: bs) as := by
          apply ih; simp at hab ⊢; omega
        have h2 : levSpec (a :: as) bs = levSpec bs (a :: as) := by
          apply ih; simp at hab ⊢; omega
        have h3 : levSpec as bs = levSpec bs as := by
          apply ih; simp at hab ⊢; omega
        have h4 : (if a = b then (0:ℕ) else 1) = (if b = a then 0 else 1) := by
          by_cases hab2 : a = b
          · simp [hab2]
          · have hba : ¬ b = a := fun h => hab2 h.symm
            simp [hab2, hba]
        rw [h1, h2, h3, h4]
        omega
  exact H (a.length + b.length) a b le_rfl

/-- The embedded `_levenshtein_distance` equals the reference recursion on
the reversed token lists (for every pair of inputs, swap included). -/
theorem levenshteinDistance_eq (s1 s2 : List String) :
    levenshteinDistance s1 s2 = levSpec s1.reverse s2.reverse := by
  unfold levenshteinDistance
  by_cases hlt : s1.length < s2.length
  · simp only [hlt, if_true]
    by_cases h2 : s1.length = 0
    · have hs1 : s1 = [] := List.length_eq_zero.mp h2
      subst hs1
      simp [levSpec_nil_left]
    · simp only [h2, if_false]
      rw [levLoop_getD s2 s1]
      exact levSpec_comm _ _
  · simp only [hlt, if_false]
    by_cases h2 : s2.length = 0
    · have hs2 : s2 = [] := List.length_eq_zero.mp h2
      subst hs2
      simp [levSpec_nil_right]
    · simp only [h2, if_false]
      exact levLoop_getD s1 s2

theorem levenshteinDistance_self (s : List String) : levenshteinDistance s s = 0 := by
  rw [levenshteinDistance_eq, levSpec_self]

theorem levenshteinDistance_comm (a b : List String) :
    levenshteinDistance a b = levenshteinDistance b a := by
  rw [levenshteinDistance_eq, levenshteinDistance_eq, levSpec_comm]

/-! ### Lemmas: the Python string order is a linear order -/

theorem pyListLt_cons_cons (x y : Char) (xs ys : List Char) :
    pyListLt (x :: xs) (y :: ys) =
      (if x.toNat < y.toNat then true
        else if y.toNat < x.toNat then false
        else pyListLt xs ys) := rfl

theorem char_toNat_inj {a b : Char} (h : a.toNat = b.toNat) : a = b := by
  have := congrArg Char.ofNat h
  rwa [Char.ofNat_toNat, Char.ofNat_toNat] at this

theorem pyListLt_trans :
    ∀ (a b c : List Char), pyListLt a b = true → pyListLt b c = true →
      pyListLt a c = true := by
  intro a
  induction a with
  | nil =>
    intro b c hab hbc
    cases b with
    | nil => simp [pyListLt] at hab
    | cons y ys =>
      cases c with
      | nil => simp [pyListLt] at hbc
      | cons z zs => simp [pyListLt]
  | cons x xs ih =>
    intro b c hab hbc
    cases b with
    | nil => simp [pyListLt] at hab
    | cons y ys =>
      cases c with
      | nil => simp [pyListLt] at hbc
      | cons z zs =>
        by_cases h1 : x.toNat < y.toNat
        · by_cases h2 : y.toNat < z.toNat
          · have h3 : x.toNat < z.toNat := by omega
            simp [pyListLt_cons_cons, h3]
          · by_cases h2b : z.toNat < y.toNat
            · rw [pyListLt_cons_cons, if_neg h2, if_pos h2b] at hbc
              simp at hbc
            · have h3 : x.toNat < z.toNat := by omega
              simp [pyListLt_cons_cons, h3]
        · by_cases h1b : y.toNat < x.toNat
          · rw [pyListLt_cons_cons, if_neg h1, if_pos h1b] at hab
            simp at hab
          · rw [pyListLt_cons_cons, if_neg h1, if_neg h1b] at hab
            by_cases h2 : y.toNat < z.toNat
            · have h3 : x.toNat < z.toNat := by omega
              simp [pyListLt_cons_cons, h3]
            · by_cases h2b : z.toNat < y.toNat
              · rw [pyListLt_cons_cons, if_neg h2, if_pos h2b] at hbc
                simp at hbc
              · rw [pyListLt_cons_cons, if_neg h2, if_neg h2b] at hbc
                have h3 : ¬ x.toNat < z.toNat := by omega
                have h3b : ¬ z.toNat < x.toNat := by omega
                rw [pyListLt_cons_cons, if_neg h3, if_neg h3b]
                exact ih ys zs hab hbc

theorem pyListLt_conn :
    ∀ (a b : List Char), pyListLt a b = false → pyListLt b a = false → a = b := by
  intro a
  induction a with
  | nil =>
    intro b hab _
    cases b with
    | nil => rfl
    | cons y ys => simp [pyListLt] at hab
  | cons x xs ih =>
    intro b hab hba
    cases b with
    | nil => simp [pyListLt] at hba
    | cons y ys =>
      by_cases h1 : x.toNat < y.toNat
      · rw [pyListLt_cons_cons, if_pos h1] at hab
        simp at hab
      · by_cases h1b : y.toNat < x.toNat
        · rw [pyListLt_cons_cons, if_pos h1b] at hba
          simp at hba
        · have hx : x = y := char_toNat_inj (by omega)
          rw [pyListLt_cons_cons, if_neg h1, if_neg h1b] at hab
          rw [pyListLt_cons_cons, if_neg h1b, if_neg h1] at hba
          rw [hx, ih ys hab hba]

theorem pyListLt_irrefl : ∀ (a : List Char), pyListLt a a = false := by
  intro a
  induction a with
  | nil => rfl
  | cons x xs ih =>
    rw [pyListLt_cons_cons, if_neg (lt_irrefl _), if_neg (lt_irrefl _)]
    exact ih

theorem string_toList_inj {a b : String} (h : a.toList = b.toList) : a = b := by
  cases a
  cases b
  simp [String.toList] at h
  simp [h]

theorem pyStrLe_trans (a b c : String) (hab : pyStrLe a b = true)
    (hbc : pyStrLe b c = true) : pyStrLe a c = true := by
  unfold pyStrLe pyStrLt at *
  simp only [Bool.not_eq_true'] at hab hbc ⊢
  by_contra hca
  have hca2 : pyListLt c.toList a.toList = true := by
    rcases Bool.eq_false_or_eq_true (pyListLt c.toList a.toList) with h | h
    · exact h
    · exact absurd h hca
  rcases Bool.eq_false_or_eq_true (pyListLt b.toList c.toList) with hbc2 | hbc2
  · have htr := pyListLt_trans _ _ _ hbc2 hca2
    rw [htr] at hab
    simp at hab
  · have hbceq : b.toList = c.toList := pyListLt_conn _ _ hbc2 hbc
    rw [hbceq, hca2] at hab
    simp at hab

theorem pyStrLe_total (a b : String) : pyStrLe a b = true ∨ pyStrLe b a = true := by
  unfold pyStrLe pyStrLt
  simp only [Bool.not_eq_true']
  rcases Bool.eq_false_or_eq_true (pyListLt b.toList a.toList) with h1 | h1
  · rcases Bool.eq_false_or_eq_true (pyListLt a.toList b.toList) with h2 | h2
    · have htr := pyListLt_trans _ _ _ h1 h2
      rw [pyListLt_irrefl] at htr
      simp at htr
    · exact Or.inr h2
  · exact Or.inl h1

theorem pyStrLe_antisymm (a b : String) (hab : pyStrLe a b = true)
    (hba : pyStrLe b a = true) : a = b := by
  unfold pyStrLe pyStrLt at hab hba
  simp only [Bool.not_eq_true'] at hab hba
  exact string_toList_inj (pyListLt_conn _ _ hba hab)

/-! ### Lemmas: the frequency-then-alphabetical order -/

theorem freqAlphaLe_trans (src : List String) :
    ∀ a b c, freqAlphaLe src a b → freqAlphaLe src b c → freqAlphaLe src a c := by
  intro a b c hab hbc
  rcases hab with h | ⟨he, hle⟩
  · rcases hbc with h2 | ⟨he2, _⟩
    · exact Or.inl (by omega)
    · exact Or.inl (by omega)
  · rcases hbc with h2 | ⟨he2, hle2⟩
    · exact Or.inl (by omega)
    · exact Or.inr ⟨by omega, pyStrLe_trans a b c hle hle2⟩

theorem freqAlphaLe_total (src : List String) :
    ∀ a b, freqAlphaLe src a b ∨ freqAlphaLe src b a := by
  intro a b
  rcases lt_trichotomy (src.count a) (src.count b) with h | h | h
  · exact Or.inr (Or.inl h)
  · rcases pyStrLe_total a b with hle | hle
    · exact Or.inl (Or.inr ⟨h, hle⟩)
    · exact Or.inr (Or.inr ⟨h.symm, hle⟩)
  · exact Or.inl (Or.inl h)

theorem freqAlphaLe_antisymm (src : List String) :
    ∀ a b, freqAlphaLe src a b → freqAlphaLe src b a → a = b := by
  intro a b hab hba
  rcases hab with h | ⟨_, hle⟩
  · rcases hba with h2 | ⟨he2, _⟩
    · omega
    · omega
  · rcases hba with h2 | ⟨_, hle2⟩
    · omega
    · exact pyStrLe_antisymm a b hle hle2

/-! ### Lemmas: `sortByFreqAlpha` and `extract_common_points` -/

theorem sortByFreqAlpha_perm (items : List String) :
    (sortByFreqAlpha items).Perm items.dedup := by
  unfold sortByFreqAlpha
  by_cases h : items.isEmpty
  · have : items = [] := by
      cases items
      · rfl
      · simp [List.isEmpty] at h
    simp [h, this]
  · simp only [h, if_false]
    exact List.perm_insertionSort _ _

theorem sortByFreqAlpha_nodup (items : List String) : (sortByFreqAlpha items).Nodup :=
  (sortByFreqAlpha_perm items).symm.nodup (List.nodup_dedup items)

theorem sortByFreqAlpha_mem (items : List String) (x : String) :
    x ∈ sortByFreqAlpha items ↔ x ∈ items := by
  rw [(sortByFreqAlpha_perm items).mem_iff, List.mem_dedup]

theorem sortByFreqAlpha_sorted (items : List String) :
    List.Sorted (freqAlphaLe items) (sortByFreqAlpha items) := by
  unfold sortByFreqAlpha
  by_cases h : items.isEmpty
  · simp [h]
  · simp only [h, if_false]
    haveI : IsTotal String (freqAlphaLe items) := ⟨freqAlphaLe_total items⟩
    haveI : IsTrans String (freqAlphaLe items) := ⟨freqAlphaLe_trans items⟩
    exact List.sorted_insertionSort _ _

theorem extract_common_points_perm (responses : List Response) (h : ¬responses.isEmpty) :
    (extract_common_points responses).Perm
      ((allSentences responses).dedup.filter fun s =>
        decide (responses.length ≤ 2 * (allSentences responses).count s)) := by
  unfold extract_common_points
  simp only [h, if_false]
  exact List.perm_insertionSort _ _

theorem extract_common_points_mem (responses : List Response) (h : ¬responses.isEmpty)
    (s : String) :
    s ∈ extract_common_points responses ↔
      (s ∈ allSentences responses ∧
        responses.length ≤ 2 * (allSentences responses).count s) := by
  rw [(extract_common_points_perm responses h).mem_iff]
  simp [List.mem_filter, List.mem_dedup]

theorem extract_common_points_nodup (responses : List Response) :
    (extract_common_points responses).Nodup := by
  unfold extract_common_points
  by_cases h : responses.isEmpty
  · simp [h]
  · simp only [h, if_false]
    exact ((List.perm_insertionSort _ _).symm.nodup
      ((List.nodup_dedup _).filter _))

theorem extract_common_points_sorted (responses : List Response) :
    List.Sorted (freqAlphaLe (allSentences responses))
      (extract_common_points responses) := by
  unfold extract_common_points
  by_cases h : responses.isEmpty
  · simp [h]
  · simp only [h, if_false]
    haveI : IsTotal String (freqAlphaLe (allSentences responses)) :=
      ⟨freqAlphaLe_total _⟩
    haveI : IsTrans String (freqAlphaLe (allSentences responses)) :=
      ⟨freqAlphaLe_trans _⟩
    exact List.sorted_insertionSort _ _

/-- C6: `compute_change_ratio` is zero on identical texts and symmetric. -/
theorem compute_change_ratio_props :
    (∀ x : String, compute_change_ratio x x = 0) ∧
    (∀ a b : String, compute_change_ratio a b = compute_change_ratio b a) := by
  constructor
  · intro x
    unfold compute_change_ratio
    simp [levenshteinDistance_self]
  · intro a b
    unfold compute_change_ratio
    simp only [levenshteinDistance_comm (pySplit a) (pySplit b)]
    rw [Nat.max_comm]

/-- C2: `should_stop` checks its four conditions in the fixed source order
and returns the first matching reason: when max-rounds is hit but the
consensus condition also holds, the reason is `"consensus_reached"`;
`below_change_threshold` can never fire without a previous candidate; the
change comparison is strict (`<`), so ratio exactly at the threshold does
not stop. -/
theorem should_stop_order_spec :
    (∀ (current_round approval_count : ℤ) (critical_objections : List String)
        (previous_candidate : Option String) (new_candidate : String)
        (critiques : List Response) (config : RunConfig),
      config.max_rounds ≤ current_round →
      config.quorum ≤ approval_count →
      critical_objections = [] →
      should_stop current_round approval_count critical_objections
        previous_candidate new_candidate critiques config
          = (true, "consensus_reached")) ∧
    (∀ (current_round approval_count : ℤ) (critical_objections : List String)
        (new_candidate : String) (critiques : List Response) (config : RunConfig),
      (should_stop current_round approval_count critical_objections none
          new_candidate critiques config).2 ≠ "below_change_threshold") ∧
    (∀ (previous_candidate new_candidate : String) (config : RunConfig),
      compute_change_ratio previous_candidate new_candidate
          = config.change_threshold →
      check_below_change_threshold previous_candidate new_candidate config
          = false) ∧
    (∀ (current_round approval_count : ℤ) (critical_objections : List String)
        (previous_candidate : Option String) (new_candidate : String)
        (critiques : List Response) (config : RunConfig),
      should_stop current_round approval_count critical_objections
          previous_candidate new_candidate critiques config =
        (if check_consensus_reached approval_count critical_objections config then
          (true, "consensus_reached")
        else if check_max_rounds_reached current_round config then
          (true, "max_rounds_reached")
        else if (match previous_candidate with
            | some prev => check_below_change_threshold prev new_candidate config
            | none => false) then
          (true, "below_change_threshold")
        else if check_no_changes_proposed critiques then
          (true, "no_changes_proposed")
        else
          (false, ""))) := by
  refine ⟨?_, ?_, ?_, ?_⟩
  · intro current_round approval_count critical_objections previous_candidate
      new_candidate critiques config hmax hq hcrit
    subst hcrit
    simp [should_stop, check_consensus_reached, hq]
  · intro current_round approval_count critical_objections new_candidate
      critiques config
    simp only [should_stop]
    split_ifs <;> simp_all
  · intro previous_candidate new_candidate config h
    simp [check_below_change_threshold, h]
  · intro current_round approval_count critical_objections previous_candidate
      new_candidate critiques config
    rfl

/-- C2 witness: at a concrete configuration with `max_rounds = 1`, round 1
meeting quorum with no critical objections stops with reason
`"consensus_reached"`; a stop query with no previous candidate never
reports `"below_change_threshold"`; a ratio exactly at the threshold does
not trigger the change check. -/
theorem should_stop_order_spec_witness :
    (should_stop 1 2 [] none "x" [] demoConfig = (true, "consensus_reached")) ∧
    ((should_stop 5 0 ["bad"] none "x" [] demoConfig).2 ≠ "below_change_threshold") ∧
    (check_below_change_threshold "" "" demoConfig = false) := by
  have hq : demoConfig.quorum = 2 := by
    simp [demoConfig, RunConfig.quorum]
  refine ⟨?_, ?_, ?_⟩
  · exact should_stop_order_spec.1 1 2 [] none "x" [] demoConfig
      (by simp [demoConfig]) (by rw [hq]) rfl
  · exact should_stop_order_spec.2.1 5 0 ["bad"] "x" [] demoConfig
  · exact should_stop_order_spec.2.2.1 "" "" demoConfig rfl

/-- C4: `build_digest` of the empty input is the empty digest; for
non-empty input, `common_points` holds exactly the sentences occurring at
least `0.5 * number_of_responses` times (inclusive; exact string
comparison); and all four output lists are duplicate-free and sorted by
descending frequency with ties broken by ascending code-point order. -/
theorem build_digest_spec :
    (build_digest []
      = { common_points := [], objections := [], missing := [], suggested_edits := [] }) ∧
    (∀ (responses : List Response), responses ≠ [] →
      ∀ s, (s ∈ (build_digest responses).common_points ↔
        (s ∈ allSentences responses ∧
          responses.length ≤ 2 * (allSentences responses).count s))) ∧
    (∀ responses : List Response,
      (build_digest responses).common_points.Nodup
      ∧ (build_digest responses).objections.Nodup
      ∧ (build_digest responses).missing.Nodup
      ∧ (build_digest responses).suggested_edits.Nodup) ∧
    (∀ (responses : List Response) (x : String),
      (x ∈ (build_digest responses).objections ↔ x ∈ allObjections responses)
      ∧ (x ∈ (build_digest responses).missing ↔ x ∈ allMissing responses)
      ∧ (x ∈ (build_digest responses).suggested_edits ↔ x ∈ allEdits responses)) ∧
    (∀ responses : List Response,
      List.Sorted (freqAlphaLe (allSentences responses))
          (build_digest responses).common_points
      ∧ List.Sorted (freqAlphaLe (allObjections responses))
          (build_digest responses).objections
      ∧ List.Sorted (freqAlphaLe (allMissing responses))
          (build_digest responses).missing
      ∧ List.Sorted (freqAlphaLe (allEdits responses))
          (build_digest responses).suggested_edits) := by
  have hne : ∀ responses : List Response, responses ≠ [] → ¬responses.isEmpty := by
    intro responses h
    cases responses
    · exact absurd rfl h
    · simp
  refine ⟨rfl, ?_, ?_, ?_, ?_⟩
  · intro responses h s
    have hie := hne responses h
    simp only [build_digest, hie, if_false]
    exact extract_common_points_mem responses hie s
  · intro responses
    by_cases hie : responses.isEmpty
    · simp [build_digest, hie]
    · simp only [build_digest, hie, if_false]
      exact ⟨extract_common_points_nodup responses, sortByFreqAlpha_nodup _,
        sortByFreqAlpha_nodup _, sortByFreqAlpha_nodup _⟩
  · intro responses x
    by_cases hie : responses.isEmpty
    · have : responses = [] := by
        cases responses
        · rfl
        · simp at hie
      subst this
      simp [build_digest, allObjections, allMissing, allEdits]
    · simp only [build_digest, hie, if_false]
      exact ⟨sortByFreqAlpha_mem _ x, sortByFreqAlpha_mem _ x, sortByFreqAlpha_mem _ x⟩
  · intro responses
    by_cases hie : responses.isEmpty
    · simp [build_digest, hie]
    · simp only [build_digest, hie, if_false]
      exact ⟨extract_common_points_sorted responses, sortByFreqAlpha_sorted _,
        sortByFreqAlpha_sorted _, sortByFreqAlpha_sorted _⟩

/-- C4 witness: the common-point membership characterization instantiated
at one concrete non-empty response list and sentence. -/
theorem build_digest_spec_witness :
    ("Hello" ∈ (build_digest [{ model_name := "alpha", answer := "Hello" }]).common_points
      ↔ ("Hello" ∈ allSentences [{ model_name := "alpha", answer := "Hello" }]
          ∧ [({ model_name := "alpha", answer := "Hello" } : Response)].length
              ≤ 2 * (allSentences [{ model_name := "alpha", answer := "Hello" }]).count
                  "Hello")) :=
  build_digest_spec.2.1 [{ model_name := "alpha", answer := "Hello" }]
    (by simp) "Hello"

/-- C5: `update_digest_from_critiques` keeps `common_points` unchanged and
rebuilds the other three lists as the deduplicated, frequency-then-alpha
sorted merge of the previous digest's entries with the flattened critique
entries. -/
theorem update_digest_spec :
    ∀ (previous_digest : Digest) (critiques : List Response),
      ((update_digest_from_critiques previous_digest critiques).common_points
          = previous_digest.common_points)
      ∧ (∀ x, x ∈ (update_digest_from_critiques previous_digest critiques).objections
          ↔ x ∈ previous_digest.objections ++ allObjections critiques)
      ∧ (∀ x, x ∈ (update_digest_from_critiques previous_digest critiques).missing
          ↔ x ∈ previous_digest.missing ++ allMissing critiques)
      ∧ (∀ x, x ∈ (update_digest_from_critiques previous_digest critiques).suggested_edits
          ↔ x ∈ previous_digest.suggested_edits ++ allEdits critiques)
      ∧ (update_digest_from_critiques previous_digest critiques).objections.Nodup
      ∧ (update_digest_from_critiques previous_digest critiques).missing.Nodup
      ∧ (update_digest_from_critiques previous_digest critiques).suggested_edits.Nodup
      ∧ List.Sorted (freqAlphaLe (previous_digest.objections ++ allObjections critiques))
          (update_digest_from_critiques previous_digest critiques).objections
      ∧ List.Sorted (freqAlphaLe (previous_digest.missing ++ allMissing critiques))
          (update_digest_from_critiques previous_digest critiques).missing
      ∧ List.Sorted (freqAlphaLe (previous_digest.suggested_edits ++ allEdits critiques))
          (update_digest_from_critiques previous_digest critiques).suggested_edits := by
  intro previous_digest critiques
  simp only [update_digest_from_critiques]
  exact ⟨trivial, sortByFreqAlpha_mem _, sortByFreqAlpha_mem _, sortByFreqAlpha_mem _,
    sortByFreqAlpha_nodup _, sortByFreqAlpha_nodup _, sortByFreqAlpha_nodup _,
    sortByFreqAlpha_sorted _, sortByFreqAlpha_sorted _, sortByFreqAlpha_sorted _⟩

/-! ### Lemmas: `RunConfig.__post_init__` characterization (claim C1) -/

theorem runConfig_post_init_ok_iff (cfg : RunConfig) :
    RunConfig.post_init cfg = .ok cfg ↔
      (2 ≤ cfg.models.length ∧ 1 ≤ cfg.max_rounds ∧
        (0 ≤ cfg.approval_ratio ∧ cfg.approval_ratio ≤ 1) ∧
        (0 ≤ cfg.change_threshold ∧ cfg.change_threshold ≤ 1) ∧
        (∀ t, cfg.max_context_tokens = some t → 1 ≤ t)) := by
  unfold RunConfig.post_init
  constructor
  · intro h
    split_ifs at h with h1 h2 h3 h4 h5 <;> try simp at h
    refine ⟨by omega, by omega, h3, h4, ?_⟩
    intro t ht
    rw [ht] at h5
    simp at h5
    omega
  · rintro ⟨hm, hr, ha, hc, ht⟩
    rw [if_neg (by omega), if_neg (by omega), if_neg (not_not_intro ha),
      if_neg (not_not_intro hc), if_neg ?_]
    cases hmc : cfg.max_context_tokens with
    | none => simp
    | some t =>
      have := ht t hmc
      simp
      omega

/-- C1 counterexample: a `RunConfig` whose mediator name equals a
participant name is constructed without error — `__post_init__` performs
no disjointness check. -/
theorem runConfig_mediator_overlap_counterexample :
    overlapConfig.mediator.name ∈ overlapConfig.models.map ModelConfig.name
    ∧ RunConfig.post_init overlapConfig = .ok overlapConfig := by
  constructor
  · simp [overlapConfig]
  · refine (runConfig_post_init_ok_iff overlapConfig).mpr ?_
    refine ⟨by simp [overlapConfig], by simp [overlapConfig], ?_, ?_, ?_⟩
    · constructor
      · simp [overlapConfig]
      · simp [overlapConfig]
    · constructor
      · simp [overlapConfig]
      · simp [overlapConfig]
    · intro t ht
      simp [overlapConfig] at ht

/-- C1 (amended): `RunConfig` construction validates only the count,
round, ratio and context-token bounds — it succeeds regardless of any
overlap between the mediator and participant names — while the config
loader's cross-validation rejects a mediator whose name appears among the
participant names. -/
theorem runConfig_disjointness_spec :
    (∀ cfg : RunConfig,
      RunConfig.post_init cfg = .ok cfg ↔
        (2 ≤ cfg.models.length ∧ 1 ≤ cfg.max_rounds ∧
          (0 ≤ cfg.approval_ratio ∧ cfg.approval_ratio ≤ 1) ∧
          (0 ≤ cfg.change_threshold ∧ cfg.change_threshold ≤ 1) ∧
          (∀ t, cfg.max_context_tokens = some t → 1 ≤ t))) ∧
    (∀ (model_names : List String) (mediator : ModelConfig),
      mediator.name ∈ model_names →
        validateMediatorNotParticipant model_names mediator
          = .error "Mediator must not appear in participant model list") ∧
    (∀ (model_names : List String) (mediator : ModelConfig),
      mediator.name ∉ model_names →
        validateMediatorNotParticipant model_names mediator = .ok ()) := by
  refine ⟨runConfig_post_init_ok_iff, ?_, ?_⟩
  · intro model_names mediator h
    simp [validateMediatorNotParticipant, h]
  · intro model_names mediator h
    simp [validateMediatorNotParticipant, h]

/-- C1 witness: the overlapping configuration is accepted by
`__post_init__` but rejected by the loader's cross-validation. -/
theorem runConfig_disjointness_spec_witness :
    RunConfig.post_init overlapConfig = .ok overlapConfig
    ∧ validateMediatorNotParticipant ["alpha", "beta"] overlapConfig.mediator
        = .error "Mediator must not appear in participant model list" := by
  constructor
  · refine (runConfig_disjointness_spec.1 overlapConfig).mpr ?_
    refine ⟨by simp [overlapConfig], by simp [overlapConfig],
      ⟨by simp [overlapConfig], by simp [overlapConfig]⟩,
      ⟨by simp [overlapConfig], by simp [overlapConfig]⟩, ?_⟩
    intro t ht
    simp [overlapConfig] at ht
  · exact runConfig_disjointness_spec.2.1 ["alpha", "beta"] overlapConfig.mediator
      (by simp [overlapConfig])

/-! ### Claim C8 : `check_round_responses` -/

/-- C8 counterexample: with `approval_ratio = 0` the quorum is 0, so an
empty success list is at-or-above quorum, yet `check_round_responses`
raises the zero-response failure (the zero check runs first). -/
theorem check_round_responses_counterexample :
    zeroRatioConfig.quorum ≤ (([] : List Response).length : ℤ)
    ∧ check_round_responses [] zeroRatioConfig 1 = .error (.zeroResponse 1) := by
  have hq : zeroRatioConfig.quorum = 0 := by
    simp [zeroRatioConfig, RunConfig.quorum]
  constructor
  · rw [hq]
    simp
  · simp [check_round_responses]

/-- C8 (amended): zero successes always raise the zero-response failure (a
constructor distinct from the quorum failure); a success count strictly
between zero and the quorum raises the quorum failure carrying
received/required; a success count at or above the quorum — with at least
one success — passes. -/
theorem check_round_responses_spec :
    (∀ (config : RunConfig) (round_index : ℤ),
      check_round_responses [] config round_index
        = .error (.zeroResponse round_index)) ∧
    (∀ (responses : List Response) (config : RunConfig) (round_index : ℤ),
      responses ≠ [] → (responses.length : ℤ) < config.quorum →
      check_round_responses responses config round_index
        = .error (.quorum (responses.length : ℤ) config.quorum)) ∧
    (∀ (responses : List Response) (config : RunConfig) (round_index : ℤ),
      responses ≠ [] → config.quorum ≤ (responses.length : ℤ) →
      check_round_responses responses config round_index = .ok ()) ∧
    (∀ (ri rec req : ℤ), RoundError.zeroResponse ri ≠ RoundError.quorum rec req) := by
  refine ⟨?_, ?_, ?_, ?_⟩
  · intro config round_index
    simp [check_round_responses]
  · intro responses config round_index hne hlt
    have hpos : 0 < responses.length := List.length_pos.mpr hne
    have h0 : ¬((responses.length : ℤ) = 0) := by
      omega
    simp only [check_round_responses, h0, if_false, hlt, if_true]
  · intro responses config round_index hne hge
    have hpos : 0 < responses.length := List.length_pos.mpr hne
    have h0 : ¬((responses.length : ℤ) = 0) := by
      omega
    have h1 : ¬((responses.length : ℤ) < config.quorum) := by omega
    simp only [check_round_responses, h0, if_false, h1]
  · intro ri rec req
    simp

/-- C8 witness: with the quorum-2 demo configuration, one success raises
the quorum failure with `received = 1, required = 2`, and two successes
pass; an empty round raises the zero-response failure. -/
theorem check_round_responses_spec_witness :
    check_round_responses [] demoConfig 1 = .error (.zeroResponse 1)
    ∧ check_round_responses [{ model_name := "alpha", answer := "x" }] demoConfig 2
        = .error (.quorum 1 2)
    ∧ check_round_responses
        [{ model_name := "alpha", answer := "x" },
          { model_name := "beta", answer := "y" }] demoConfig 2 = .ok () := by
  have hq : demoConfig.quorum = 2 := by
    simp [demoConfig, RunConfig.quorum]
  refine ⟨?_, ?_, ?_⟩
  · exact check_round_responses_spec.1 demoConfig 1
  · have h := check_round_responses_spec.2.1
      [{ model_name := "alpha", answer := "x" }] demoConfig 2
      (by simp) (by rw [hq]; simp)
    rw [hq] at h
    simpa using h
  · exact check_round_responses_spec.2.2.1
      [{ model_name := "alpha", answer := "x" },
        { model_name := "beta", answer := "y" }] demoConfig 2
      (by simp) (by rw [hq]; simp)

/-! ### Lemmas: list update arithmetic for `track_usage` -/

theorem replicate_zero_getD (n j : ℕ) : (List.replicate n (0:ℤ)).getD j 0 = 0 := by
  induction n generalizing j with
  | zero => cases j <;> simp [List.getD]
  | succ n ih =>
    cases j with
    | zero => simp [List.replicate]
    | succ j => simpa [List.replicate] using ih j

theorem getD_append_replicate_zero (l : List ℤ) (n : ℕ) :
    ∀ j, (l ++ List.replicate n (0:ℤ)).getD j 0 = l.getD j 0 := by
  induction l with
  | nil => intro j; simpa using replicate_zero_getD n j
  | cons x xs ih =>
    intro j
    cases j with
    | zero => simp
    | succ j => simpa using ih j

theorem sum_set_add (t : ℤ) :
    ∀ (l : List ℤ) (i : ℕ), i < l.length →
      (l.set i (l.getD i 0 + t)).sum = l.sum + t := by
  intro l
  induction l with
  | nil => intro i h; simp at h
  | cons x xs ih =>
    intro i h
    cases i with
    | zero =>
      simp [List.set]
      omega
    | succ i =>
      have hi : i < xs.length := by simpa using h
      simp only [List.set, List.getD_cons_succ, List.sum_cons]
      rw [ih i hi]
      omega

theorem getD_set_self (x : ℤ) :
    ∀ (l : List ℤ) (i : ℕ), i < l.length → (l.set i x).getD i 0 = x := by
  intro l
  induction l with
  | nil => intro i h; simp at h
  | cons y ys ih =>
    intro i h
    cases i with
    | zero => simp [List.set]
    | succ i =>
      have hi : i < ys.length := by simpa using h
      simpa [List.set] using ih i hi

theorem getD_set_ne (x : ℤ) :
    ∀ (l : List ℤ) (i j : ℕ), i ≠ j → (l.set i x).getD j 0 = l.getD j 0 := by
  intro l
  induction l with
  | nil => intro i j _; simp
  | cons y ys ih =>
    intro i j hne
    cases i with
    | zero =>
      cases j with
      | zero => exact absurd rfl hne
      | succ j => simp [List.set]
    | succ i =>
      cases j with
      | zero => simp [List.set]
      | succ j => simpa [List.set] using ih i j (by omega)

theorem sum_nonneg_of_entries (l : List ℤ) (h : ∀ v ∈ l, 0 ≤ v) : 0 ≤ l.sum :=
  List.sum_nonneg h

/-! ### Claim C10 : `track_usage` -/

/-- C10 counterexample: a `ContextBudget` that passed `__post_init__` but
carries a negative per-round entry makes `track_usage` fail even though
the accumulated sum stays within `max_tokens` — the re-validation trips on
`used_tokens >= 0`, not on the budget cap. -/
theorem track_usage_counterexample :
    ContextBudget.post_init negUsageBudget = .ok negUsageBudget
    ∧ (0 : ℤ) ≤ 0
    ∧ negUsageBudget.round_usage.sum + 0 ≤ negUsageBudget.max_tokens
    ∧ track_usage negUsageBudget 0 0 = .error "used_tokens must be >= 0" := by
  refine ⟨rfl, le_refl 0, by decide, rfl⟩

/-- C10 (amended): for a budget that passed construction and whose
per-round entries are non-negative, and a non-negative token count:
if the per-round sum plus the new tokens exceeds `max_tokens`, the
constructor re-validation makes `track_usage` raise; otherwise it returns
a budget with the indexed round increased by `tokens`, zero-extension for
skipped rounds, and `used_tokens` equal to the sum of `round_usage`. -/
theorem track_usage_spec :
    ∀ (budget : ContextBudget) (tokens : ℤ) (round_idx : ℕ),
      ContextBudget.post_init budget = .ok budget →
      (∀ v ∈ budget.round_usage, 0 ≤ v) →
      0 ≤ tokens →
      ((budget.max_tokens < budget.round_usage.sum + tokens →
        track_usage budget tokens round_idx = .error "used_tokens exceeds max_tokens")
      ∧ (budget.round_usage.sum + tokens ≤ budget.max_tokens →
        ∃ b2, track_usage budget tokens round_idx = .ok b2
          ∧ b2.max_tokens = budget.max_tokens
          ∧ b2.used_tokens = b2.round_usage.sum
          ∧ b2.round_usage.sum = budget.round_usage.sum + tokens
          ∧ b2.round_usage.length = max budget.round_usage.length (round_idx + 1)
          ∧ b2.round_usage.getD round_idx 0
              = budget.round_usage.getD round_idx 0 + tokens
          ∧ (∀ j, j ≠ round_idx →
              b2.round_usage.getD j 0 = budget.round_usage.getD j 0))) := by
  intro budget tokens round_idx hvalid hnn htok
  have hmax : 1 ≤ budget.max_tokens := by
    unfold ContextBudget.post_init at hvalid
    split_ifs at hvalid with h1 h2 h3 <;> try simp at hvalid
    omega
  have hnotneg : ¬(tokens < 0) := by omega
  set extended := budget.round_usage
    ++ List.replicate (round_idx + 1 - budget.round_usage.length) 0 with hext
  have hextlen : extended.length = max budget.round_usage.length (round_idx + 1) := by
    rw [hext]
    simp [List.length_append, List.length_replicate]
    omega
  have hlt : round_idx < extended.length := by
    rw [hextlen]
    omega
  have hextsum : extended.sum = budget.round_usage.sum := by
    rw [hext]
    simp [List.sum_append, List.sum_replicate]
  have hextnn : ∀ v ∈ extended, 0 ≤ v := by
    intro v hv
    rw [hext] at hv
    rcases List.mem_append.mp hv with h | h
    · exact hnn v h
    · have := List.eq_of_mem_replicate h
      omega
  set new_usage := extended.set round_idx (extended.getD round_idx 0 + tokens)
    with hnew
  have hnewsum : new_usage.sum = budget.round_usage.sum + tokens := by
    rw [hnew, sum_set_add tokens extended round_idx hlt, hextsum]
  have hsumnn : 0 ≤ budget.round_usage.sum := sum_nonneg_of_entries _ hnn
  have heq : track_usage budget tokens round_idx
      = mkContextBudget budget.max_tokens new_usage.sum new_usage := by
    simp only [track_usage, hnotneg, if_false]
  constructor
  · intro hover
    rw [heq]
    unfold mkContextBudget ContextBudget.post_init
    dsimp only
    rw [if_neg (by omega), if_neg (by omega), if_pos (by omega)]
  · intro hunder
    refine ⟨{ max_tokens := budget.max_tokens
              used_tokens := new_usage.sum
              round_usage := new_usage }, ?_, rfl, rfl, ?_, ?_, ?_, ?_⟩
    · rw [heq]
      unfold mkContextBudget ContextBudget.post_init
      dsimp only
      rw [if_neg (by omega), if_neg (by omega), if_neg (by omega)]
    · exact hnewsum
    · rw [hnew, List.length_set, hextlen]
    · rw [hnew, getD_set_self _ extended round_idx hlt, hext,
        getD_append_replicate_zero]
    · intro j hj
      rw [hnew, getD_set_ne _ extended round_idx j (fun h => hj h.symm), hext,
        getD_append_replicate_zero]

/-- C10 witness: tracking 5 tokens into round 1 of a fresh 10-token budget
with one recorded round extends the usage and re-sums; tracking 8 more
tokens overflows and raises. -/
theorem track_usage_spec_witness :
    (∃ b2, track_usage { max_tokens := 10, used_tokens := 3, round_usage := [3] } 5 1
        = .ok b2
      ∧ b2.max_tokens = 10
      ∧ b2.used_tokens = b2.round_usage.sum
      ∧ b2.round_usage.sum = 8
      ∧ b2.round_usage.length = 2
      ∧ b2.round_usage.getD 1 0 = 5
      ∧ (∀ j, j ≠ 1 →
          b2.round_usage.getD j 0
            = ([3] : List ℤ).getD j 0))
    ∧ track_usage { max_tokens := 10, used_tokens := 3, round_usage := [3] } 8 0
        = .error "used_tokens exceeds max_tokens" := by
  constructor
  · have h := (track_usage_spec { max_tokens := 10, used_tokens := 3, round_usage := [3] }
      5 1 rfl (by decide) (by decide)).2 (by decide)
    simpa using h
  · exact (track_usage_spec { max_tokens := 10, used_tokens := 3, round_usage := [3] }
      8 0 rfl (by decide) (by decide)).1 (by decide)

/-! ### Lemmas: round grouping arithmetic (claim C3) -/

theorem getD_mem_of_lt {l : List ℤ} {n : ℕ} (h : n < l.length) : l.getD n 0 ∈ l := by
  rw [List.getD_eq_getElem?_getD, List.getElem?_eq_getElem h]
  simp

theorem roundTokens_cons (t0 : ℕ) (r0 : ℤ) (tc : List ℕ) (idxs : List ℤ) (r : ℤ) :
    roundTokens (t0 :: tc) (r0 :: idxs) r
      = (if r0 = r then t0 else 0) + roundTokens tc idxs r := by
  unfold roundTokens roundIndicesOf
  rw [List.length_cons, List.range_succ_eq_map, List.filter_cons]
  have hpred : (fun i => decide ((r0 :: idxs).getD i 0 = r)) ∘ Nat.succ
      = fun i => decide (idxs.getD i 0 = r) := by
    funext i
    simp
  have hfm : List.filter (fun i => decide ((r0 :: idxs).getD i 0 = r))
        (List.map Nat.succ (List.range idxs.length))
      = List.map Nat.succ
          (List.filter (fun i => decide (idxs.getD i 0 = r)) (List.range idxs.length)) := by
    rw [List.filter_map, hpred]
  have hcomp : ((fun i => (t0 :: tc).getD i 0) ∘ Nat.succ) = fun j => tc.getD j 0 := by
    funext j
    simp
  by_cases h0 : r0 = r
  · have hcond : (decide ((r0 :: idxs).getD 0 0 = r)) = true := by simp [h0]
    rw [hcond, if_pos rfl, hfm, List.map_cons, List.map_map, hcomp]
    simp [h0]
  · have hcond : (decide ((r0 :: idxs).getD 0 0 = r)) = false := by simp [h0]
    rw [hcond]
    simp only [Bool.false_eq_true, if_false]
    rw [hfm, List.map_map, hcomp]
    simp [h0]

theorem roundTokens_not_mem (tc : List ℕ) (idxs : List ℤ) (r : ℤ) (h : r ∉ idxs) :
    roundTokens tc idxs r = 0 := by
  unfold roundTokens roundIndicesOf
  have hnil : List.filter (fun i => decide (idxs.getD i 0 = r))
      (List.range idxs.length) = [] := by
    rw [List.filter_eq_nil_iff]
    intro i hi
    have hlt : i < idxs.length := List.mem_range.mp hi
    simp only [decide_eq_true_eq]
    intro heq
    exact h (heq ▸ getD_mem_of_lt hlt)
  rw [hnil]
  rfl

theorem sum_if_not_mem (t0 : ℕ) (r0 : ℤ) :
    ∀ L : List ℤ, r0 ∉ L → (L.map fun r => if r0 = r then t0 else 0).sum = 0 := by
  intro L
  induction L with
  | nil => intro _; rfl
  | cons a L ih =>
    intro h
    have ha : r0 ≠ a := by
      intro he
      exact h (he ▸ List.mem_cons_self a L)
    have hL : r0 ∉ L := fun hm => h (List.mem_cons_of_mem a hm)
    simp [ha, ih hL]

theorem sum_if_mem_nodup (t0 : ℕ) (r0 : ℤ) :
    ∀ L : List ℤ, L.Nodup → r0 ∈ L →
      (L.map fun r => if r0 = r then t0 else 0).sum = t0 := by
  intro L
  induction L with
  | nil => intro _ h; simp at h
  | cons a L ih =>
    intro hnd hm
    by_cases ha : r0 = a
    · subst ha
      have hL : r0 ∉ L := (List.nodup_cons.mp hnd).1
      simp [sum_if_not_mem t0 r0 L hL]
    · have hmL : r0 ∈ L := by
        rcases List.mem_cons.mp hm with h | h
        · exact absurd h ha
        · exact h
      simp [ha, ih (List.nodup_cons.mp hnd).2 hmL]

theorem tokens_partition :
    ∀ (idxs : List ℤ) (tc : List ℕ), tc.length = idxs.length →
      tc.sum = ((idxs.dedup).map (roundTokens tc idxs)).sum := by
  intro idxs
  induction idxs with
  | nil =>
    intro tc hlen
    have : tc = [] := List.length_eq_zero.mp hlen
    subst this
    rfl
  | cons r0 idxs ih =>
    intro tc hlen
    cases tc with
    | nil => simp at hlen
    | cons t0 tc =>
      have hlen2 : tc.length = idxs.length := by simpa using hlen
      have hmap : ((r0 :: idxs).dedup.map (roundTokens (t0 :: tc) (r0 :: idxs))).sum
          = ((r0 :: idxs).dedup.map fun r => if r0 = r then t0 else 0).sum
            + ((r0 :: idxs).dedup.map (roundTokens tc idxs)).sum := by
        rw [← List.sum_map_add]
        congr 1
        apply List.map_congr_left
        intro r _
        rw [roundTokens_cons]
      by_cases h0 : r0 ∈ idxs
      · rw [List.dedup_cons_of_mem h0] at hmap ⊢
        rw [hmap, sum_if_mem_nodup t0 r0 idxs.dedup (List.nodup_dedup idxs)
          (List.mem_dedup.mpr h0)]
        rw [List.sum_cons, ih tc hlen2]
      · rw [List.dedup_cons_of_not_mem h0] at hmap ⊢
        rw [hmap]
        have h0d : r0 ∉ idxs.dedup := fun hm => h0 (List.mem_dedup.mp hm)
        rw [List.map_cons, List.sum_cons, List.map_cons, List.sum_cons]
        have hself : (if r0 = r0 then t0 else 0) = t0 := if_pos rfl
        rw [hself, sum_if_not_mem t0 r0 idxs.dedup h0d,
          roundTokens_not_mem tc idxs r0 h0]
        rw [List.sum_cons, ih tc hlen2]
        omega

/-! ### Lemmas: the oldest-round removal loop (claim C3) -/

theorem popLoopAsc_suffix (rt : ℤ → ℕ) (target maxR : ℤ) :
    ∀ (l : List ℤ) (c : ℤ), (popLoopAsc rt target maxR l c) <:+ l := by
  intro l
  induction l with
  | nil => intro c; simp [popLoopAsc]
  | cons r l ih =>
    intro c
    cases l with
    | nil => simp [popLoopAsc]
    | cons r2 rest =>
      simp only [popLoopAsc]
      by_cases h1 : target < c
      · simp only [h1, if_true]
        by_cases h2 : r = maxR
        · simp [h2]
        · simp only [h2, if_false]
          exact (ih (c - (rt r : ℤ))).trans (List.suffix_cons r (r2 :: rest))
      · simp [h1]

theorem popLoopAsc_max_mem (rt : ℤ → ℕ) (target maxR : ℤ) :
    ∀ (l : List ℤ) (c : ℤ), maxR ∈ l → maxR ∈ popLoopAsc rt target maxR l c := by
  intro l
  induction l with
  | nil => intro c h; simp at h
  | cons r l ih =>
    intro c hm
    cases l with
    | nil =>
      simpa [popLoopAsc] using hm
    | cons r2 rest =>
      simp only [popLoopAsc]
      by_cases h1 : target < c
      · simp only [h1, if_true]
        by_cases h2 : r = maxR
        · simp only [h2, if_true]
          exact h2 ▸ hm
        · simp only [h2, if_false]
          apply ih
          rcases List.mem_cons.mp hm with h | h
          · exact absurd h.symm h2
          · exact h
      · simp only [h1, if_false]
        exact hm

theorem popLoopAsc_semantics (rt : ℤ → ℕ) (target maxR : ℤ) :
    ∀ (l : List ℤ), l.Sorted (fun a b => a ≤ b) → l.Nodup → maxR ∈ l →
      (∀ x ∈ l, x ≤ maxR) →
      ((((popLoopAsc rt target maxR l ((l.map rt).sum : ℤ)).map rt).sum : ℤ) ≤ target
        ∨ popLoopAsc rt target maxR l ((l.map rt).sum : ℤ) = [maxR])
      ∧ (∀ r ∈ l, r ∉ popLoopAsc rt target maxR l ((l.map rt).sum : ℤ) →
          target < (((l.filter fun x => decide (r ≤ x)).map rt).sum : ℤ))
      ∧ (∀ r ∈ popLoopAsc rt target maxR l ((l.map rt).sum : ℤ),
          ∀ r2 ∈ l, r ≤ r2 → r2 ∈ popLoopAsc rt target maxR l ((l.map rt).sum : ℤ)) := by
  intro l
  induction l with
  | nil => intro _ _ hm _; simp at hm
  | cons r l ih =>
    intro hsort hnd hm hbound
    cases l with
    | nil =>
      have hr : maxR = r := by simpa using hm
      refine ⟨?_, ?_, ?_⟩
      · right
        simp [popLoopAsc, hr]
      · intro r' hr' habs
        have he : r' = r := by simpa using hr'
        subst he
        simp [popLoopAsc] at habs
      · intro r' hr' r2' hr2' _
        have he : r2' = r := by simpa using hr2'
        subst he
        simp [popLoopAsc]
    | cons r2 rest =>
      by_cases h1 : target < ((((r :: r2 :: rest).map rt).sum : ℕ) : ℤ)
      · have hrmax : r ≠ maxR := by
          intro he
          have hle : r ≤ r2 := (List.sorted_cons.mp hsort).1 r2 (by simp)
          have hger : r2 ≤ r := by
            rw [he]
            exact hbound r2 (by simp)
          have heq : r = r2 := le_antisymm hle hger
          apply (List.nodup_cons.mp hnd).1
          rw [heq]
          simp
        have hstep : popLoopAsc rt target maxR (r :: r2 :: rest)
              (((r :: r2 :: rest).map rt).sum : ℤ)
            = popLoopAsc rt target maxR (r2 :: rest)
                ((((r :: r2 :: rest).map rt).sum : ℤ) - (rt r : ℤ)) := by
          simp only [popLoopAsc, h1, if_true, hrmax, if_false]
        have hsum : (((r :: r2 :: rest).map rt).sum : ℤ) - (rt r : ℤ)
            = (((r2 :: rest).map rt).sum : ℤ) := by
          simp only [List.map_cons, List.sum_cons]
          push_cast
          ring
        have hmtail : maxR ∈ r2 :: rest := by
          rcases List.mem_cons.mp hm with h | h
          · exact absurd h.symm hrmax
          · exact h
        have hsorttail : (r2 :: rest).Sorted (fun a b => a ≤ b) :=
          (List.sorted_cons.mp hsort).2
        have hndtail : (r2 :: rest).Nodup := (List.nodup_cons.mp hnd).2
        have hboundtail : ∀ x ∈ r2 :: rest, x ≤ maxR :=
          fun x hx => hbound x (List.mem_cons_of_mem r hx)
        have hrmin : ∀ x ∈ r2 :: rest, r ≤ x :=
          (List.sorted_cons.mp hsort).1
        have hrnot : r ∉ r2 :: rest := (List.nodup_cons.mp hnd).1
        rcases ih hsorttail hndtail hmtail hboundtail with ⟨ihA, ihB, ihC⟩
        rw [hstep, hsum]
        have hsub : popLoopAsc rt target maxR (r2 :: rest)
              (((r2 :: rest).map rt).sum : ℤ) <:+ r2 :: rest :=
          popLoopAsc_suffix rt target maxR (r2 :: rest) _
        refine ⟨ihA, ?_, ?_⟩
        · intro r' hr' hnotin
          by_cases hrr : r' = r
          · rw [hrr]
            have hfilter : List.filter (fun x => decide (r ≤ x)) (r :: r2 :: rest)
                = r :: r2 :: rest := by
              rw [List.filter_eq_self]
              intro x hx
              rcases List.mem_cons.mp hx with h | h
              · subst h
                simp
              · simp only [decide_eq_true_eq]
                exact hrmin x h
            rw [hfilter]
            exact h1
          · have hr'tail : r' ∈ r2 :: rest := by
              rcases List.mem_cons.mp hr' with h | h
              · exact absurd h hrr
              · exact h
            have hfilter : (r :: r2 :: rest).filter (fun x => decide (r' ≤ x))
                = (r2 :: rest).filter (fun x => decide (r' ≤ x)) := by
              rw [List.filter_cons]
              have : ¬ (r' ≤ r) := by
                intro hle
                have hge : r ≤ r' := hrmin r' hr'tail
                exact hrr (le_antisymm hle hge)
              simp [this]
            rw [hfilter]
            exact ihB r' hr'tail hnotin
        · intro r' hr' r2' hr2' hle
          have hr'tail : r' ∈ r2 :: rest := hsub.sublist.subset hr'
          rcases List.mem_cons.mp hr2' with h | h
          · subst h
            have hger : r2' ≤ r' := hrmin r' hr'tail
            have heq : r' = r2' := le_antisymm hle hger
            exact absurd (heq ▸ hr'tail) hrnot
          · exact ihC r' hr' r2' h hle
      · have hres : popLoopAsc rt target maxR (r :: r2 :: rest)
              (((r :: r2 :: rest).map rt).sum : ℤ)
            = r :: r2 :: rest := by
          simp only [popLoopAsc, h1, if_false]
        rw [hres]
        refine ⟨Or.inl (by omega), ?_, ?_⟩
        · intro r' hr' habs
          exact absurd hr' habs
        · intro r' _ r2' hr2' _
          exact hr2'

/-! ### Lemmas: rebuilding the surviving responses in order (claim C3) -/

theorem included_indices_eq (idxs : List ℤ) (inc : List ℤ) (hnd : inc.Nodup) :
    List.insertionSort (fun a b => a ≤ b) (inc.flatMap (roundIndicesOf idxs))
      = (List.range idxs.length).filter fun i => decide (idxs.getD i 0 ∈ inc) := by
  have hnodupL : (inc.flatMap (roundIndicesOf idxs)).Nodup := by
    rw [List.nodup_flatMap]
    constructor
    · intro r _
      exact (List.nodup_range idxs.length).filter _
    · have : inc.Pairwise (· ≠ ·) := hnd
      refine this.imp ?_
      intro a b hab
      intro i hia hib
      simp only [roundIndicesOf, List.mem_filter, decide_eq_true_eq] at hia hib
      exact absurd (hia.2.symm.trans hib.2) hab
  have hnodupR : ((List.range idxs.length).filter
      fun i => decide (idxs.getD i 0 ∈ inc)).Nodup :=
    (List.nodup_range idxs.length).filter _
  have hmem : ∀ i : ℕ, i ∈ inc.flatMap (roundIndicesOf idxs)
      ↔ i ∈ (List.range idxs.length).filter fun i => decide (idxs.getD i 0 ∈ inc) := by
    intro i
    rw [List.mem_flatMap, List.mem_filter]
    constructor
    · rintro ⟨r, hr, hi⟩
      simp only [roundIndicesOf, List.mem_filter, decide_eq_true_eq] at hi
      refine ⟨hi.1, ?_⟩
      simp only [decide_eq_true_eq]
      exact hi.2 ▸ hr
    · rintro ⟨hi, hmem⟩
      simp only [decide_eq_true_eq] at hmem
      refine ⟨idxs.getD i 0, hmem, ?_⟩
      simp only [roundIndicesOf, List.mem_filter, decide_eq_true_eq]
      exact ⟨hi, trivial⟩
  have hperm : (List.insertionSort (fun a b => a ≤ b)
        (inc.flatMap (roundIndicesOf idxs))).Perm
      ((List.range idxs.length).filter fun i => decide (idxs.getD i 0 ∈ inc)) := by
    refine (List.perm_insertionSort _ _).trans ?_
    exact (List.perm_ext_iff_of_nodup hnodupL hnodupR).mpr hmem
  exact @List.eq_of_perm_of_sorted ℕ (fun a b => a ≤ b) inferInstance _ _ hperm
    (List.sorted_insertionSort _ _)
    (((List.pairwise_lt_range idxs.length).filter _).imp le_of_lt)

theorem filter_range_map_getD_sublist (d : Response) :
    ∀ (l : List Response) (p : ℕ → Bool),
      (((List.range l.length).filter p).map fun i => l.getD i d).Sublist l := by
  intro l
  induction l with
  | nil => intro p; simp
  | cons x xs ih =>
    intro p
    rw [List.length_cons, List.range_succ_eq_map, List.filter_cons]
    have hfm : List.filter p (List.map Nat.succ (List.range xs.length))
        = List.map Nat.succ (List.filter (p ∘ Nat.succ) (List.range xs.length)) :=
      List.filter_map _ _
    have hcomp : ((fun i => (x :: xs).getD i d) ∘ Nat.succ) = fun i => xs.getD i d := by
      funext i
      simp
    by_cases hp : p 0 = true
    · rw [if_pos hp, List.map_cons, hfm, List.map_map, hcomp]
      simp only [List.getD_cons_zero]
      exact List.Sublist.cons₂ x (ih (p ∘ Nat.succ))
    · rw [if_neg hp, hfm, List.map_map, hcomp]
      exact List.Sublist.cons x (ih (p ∘ Nat.succ))

/-! ### Lemmas: the surviving-round set (claim C3) -/

theorem keysAsc_facts (idxs : List ℤ) (hne : idxs ≠ []) :
    (List.insertionSort (fun a b => a ≤ b) idxs.dedup).Sorted (fun a b => a ≤ b)
    ∧ (List.insertionSort (fun a b => a ≤ b) idxs.dedup).Nodup
    ∧ idxs.maximum.getD 0 ∈ List.insertionSort (fun a b => a ≤ b) idxs.dedup
    ∧ (∀ x ∈ List.insertionSort (fun a b => a ≤ b) idxs.dedup,
        x ≤ idxs.maximum.getD 0) := by
  obtain ⟨m, hm⟩ : ∃ m : ℤ, idxs.maximum = (m : WithBot ℤ) := by
    cases hmx : idxs.maximum with
    | bot =>
      rw [List.maximum_eq_bot] at hmx
      exact absurd hmx hne
    | coe m => exact ⟨m, rfl⟩
  have hget : idxs.maximum.getD 0 = m := by
    rw [hm]
    rfl
  have hmmem : m ∈ idxs := List.maximum_mem hm
  refine ⟨List.sorted_insertionSort _ _,
    (List.perm_insertionSort _ _).symm.nodup (List.nodup_dedup idxs), ?_, ?_⟩
  · rw [hget]
    exact (List.perm_insertionSort _ _).mem_iff.mpr (List.mem_dedup.mpr hmmem)
  · intro x hx
    rw [hget]
    exact List.le_maximum_of_mem
      (List.mem_dedup.mp ((List.perm_insertionSort _ _).mem_iff.mp hx)) hm

theorem keptRounds_nodup (responses : List Response) (idxs : List ℤ) (target : ℤ) :
    (keptRounds responses idxs target).Nodup := by
  simp only [keptRounds]
  exact List.Nodup.sublist (popLoopAsc_suffix _ _ _ _ _).sublist
    ((List.perm_insertionSort _ _).symm.nodup (List.nodup_dedup idxs))

theorem keptRounds_props (responses : List Response) (idxs : List ℤ) (target : ℤ)
    (hne : responses ≠ []) (hlen : responses.length = idxs.length) :
    idxs.maximum.getD 0 ∈ keptRounds responses idxs target
    ∧ ((((keptRounds responses idxs target).map
          (roundTokens (responses.map count_response_tokens) idxs)).sum : ℤ) ≤ target
        ∨ keptRounds responses idxs target = [idxs.maximum.getD 0])
    ∧ (∀ r ∈ idxs, r ∉ keptRounds responses idxs target →
        target < (((idxs.dedup.filter fun x => decide (r ≤ x)).map
            (roundTokens (responses.map count_response_tokens) idxs)).sum : ℤ))
    ∧ (∀ r ∈ keptRounds responses idxs target, ∀ r2 ∈ idxs, r ≤ r2 →
        r2 ∈ keptRounds responses idxs target) := by
  have hidne : idxs ≠ [] := by
    intro he
    subst he
    exact hne (List.length_eq_zero.mp (by simpa using hlen))
  obtain ⟨hsort, hnd, hmax, hbound⟩ := keysAsc_facts idxs hidne
  have htclen : (responses.map count_response_tokens).length = idxs.length := by
    simpa using hlen
  have hsum : (((responses.map count_response_tokens).sum : ℕ) : ℤ)
      = ((((List.insertionSort (fun a b => a ≤ b) idxs.dedup).map
          (roundTokens (responses.map count_response_tokens) idxs)).sum : ℕ) : ℤ) := by
    have h1 := tokens_partition idxs (responses.map count_response_tokens) htclen
    have h2 : (((List.insertionSort (fun a b => a ≤ b) idxs.dedup).map
          (roundTokens (responses.map count_response_tokens) idxs)).sum : ℕ)
        = ((idxs.dedup.map (roundTokens (responses.map count_response_tokens) idxs)).sum : ℕ) :=
      ((List.perm_insertionSort _ _).map _).sum_eq
    rw [h1, h2]
  have hkform : keptRounds responses idxs target
      = popLoopAsc (roundTokens (responses.map count_response_tokens) idxs) target
          (idxs.maximum.getD 0) (List.insertionSort (fun a b => a ≤ b) idxs.dedup)
          ((((List.insertionSort (fun a b => a ≤ b) idxs.dedup).map
              (roundTokens (responses.map count_response_tokens) idxs)).sum : ℕ) : ℤ) := by
    simp only [keptRounds]
    rw [hsum]
  obtain ⟨hA, hB, hC⟩ := popLoopAsc_semantics
    (roundTokens (responses.map count_response_tokens) idxs) target
    (idxs.maximum.getD 0) (List.insertionSort (fun a b => a ≤ b) idxs.dedup)
    hsort hnd hmax hbound
  have hmemkeys : ∀ r ∈ idxs, r ∈ List.insertionSort (fun a b => a ≤ b) idxs.dedup := by
    intro r hr
    exact (List.perm_insertionSort _ _).mem_iff.mpr (List.mem_dedup.mpr hr)
  refine ⟨?_, ?_, ?_, ?_⟩
  · rw [hkform]
    exact popLoopAsc_max_mem _ _ _ _ _ hmax
  · rw [hkform]
    exact hA
  · intro r hr hnot
    rw [hkform] at hnot
    have := hB r (hmemkeys r hr) hnot
    have hfilt : (((List.insertionSort (fun a b => a ≤ b) idxs.dedup).filter
          (fun x => decide (r ≤ x))).map
          (roundTokens (responses.map count_response_tokens) idxs)).sum
        = ((idxs.dedup.filter (fun x => decide (r ≤ x))).map
          (roundTokens (responses.map count_response_tokens) idxs)).sum :=
      (((List.perm_insertionSort _ _).filter _).map _).sum_eq
    rw [hfilt] at this
    exact this
  · intro r hr r2 hr2 hle
    rw [hkform] at hr ⊢
    exact hC r hr r2 (hmemkeys r2 hr2) hle

theorem truncate_ok_form (responses : List Response) (idxs : List ℤ)
    (budget : ContextBudget) (target : ℤ)
    (hlen : responses.length = idxs.length) :
    truncate_oldest_rounds responses idxs budget target
      = .ok (((List.range responses.length).filter fun i =>
          decide (idxs.getD i 0 ∈ keptRounds responses idxs target)).map
          fun i => responses.getD i default) := by
  unfold truncate_oldest_rounds
  rw [if_neg (not_not_intro hlen)]
  by_cases hemp : responses.isEmpty
  · have he : responses = [] := by
      cases responses
      · rfl
      · simp at hemp
    subst he
    simp [hemp]
  · rw [if_neg hemp]
    simp only [included_indices_eq idxs (keptRounds responses idxs target)
      (keptRounds_nodup responses idxs target)]
    rw [hlen]

/-- C3: `truncate_oldest_rounds` errors exactly on a length mismatch;
otherwise it returns the responses whose round survives, in original
relative order (a sublist); the highest round always survives; and the
surviving round set is the greedy oldest-first eviction: it is upward
closed, every evicted round was evicted while the remaining total
exceeded the target, and on exit either the surviving total is within the
target or only the most recent round remains. -/
theorem truncate_oldest_rounds_spec :
    (∀ (responses : List Response) (idxs : List ℤ) (budget : ContextBudget)
        (target : ℤ), responses.length ≠ idxs.length →
      truncate_oldest_rounds responses idxs budget target
        = .error "responses and round_indices must have same length") ∧
    (∀ (responses : List Response) (idxs : List ℤ) (budget : ContextBudget)
        (target : ℤ), responses.length = idxs.length →
      truncate_oldest_rounds responses idxs budget target
        = .ok (((List.range responses.length).filter fun i =>
            decide (idxs.getD i 0 ∈ keptRounds responses idxs target)).map
            fun i => responses.getD i default)) ∧
    (∀ (responses : List Response) (idxs : List ℤ) (budget : ContextBudget)
        (target : ℤ) (out : List Response),
      truncate_oldest_rounds responses idxs budget target = .ok out →
      out.Sublist responses) ∧
    (∀ (responses : List Response) (idxs : List ℤ) (target : ℤ),
      responses ≠ [] → responses.length = idxs.length →
      idxs.maximum.getD 0 ∈ keptRounds responses idxs target) ∧
    (∀ (responses : List Response) (idxs : List ℤ) (target : ℤ),
      responses ≠ [] → responses.length = idxs.length →
      ((((keptRounds responses idxs target).map
            (roundTokens (responses.map count_response_tokens) idxs)).sum : ℤ) ≤ target
        ∨ keptRounds responses idxs target = [idxs.maximum.getD 0])) ∧
    (∀ (responses : List Response) (idxs : List ℤ) (target : ℤ) (r : ℤ),
      responses ≠ [] → responses.length = idxs.length →
      r ∈ idxs → r ∉ keptRounds responses idxs target →
      target < (((idxs.dedup.filter fun x => decide (r ≤ x)).map
          (roundTokens (responses.map count_response_tokens) idxs)).sum : ℤ)) ∧
    (∀ (responses : List Response) (idxs : List ℤ) (target : ℤ) (r r2 : ℤ),
      responses ≠ [] → responses.length = idxs.length →
      r ∈ keptRounds responses idxs target → r2 ∈ idxs → r ≤ r2 →
      r2 ∈ keptRounds responses idxs target) := by
  refine ⟨?_, ?_, ?_, ?_, ?_, ?_, ?_⟩
  · intro responses idxs budget target hne
    unfold truncate_oldest_rounds
    rw [if_pos hne]
  · intro responses idxs budget target hlen
    exact truncate_ok_form responses idxs budget target hlen
  · intro responses idxs budget target out hok
    by_cases hlen : responses.length = idxs.length
    · rw [truncate_ok_form responses idxs budget target hlen] at hok
      cases hok
      exact filter_range_map_getD_sublist default responses _
    · unfold truncate_oldest_rounds at hok
      rw [if_pos hlen] at hok
      simp at hok
  · intro responses idxs target hne hlen
    exact (keptRounds_props responses idxs target hne hlen).1
  · intro responses idxs target hne hlen
    exact (keptRounds_props responses idxs target hne hlen).2.1
  · intro responses idxs target r hne hlen hr hnot
    exact (keptRounds_props responses idxs target hne hlen).2.2.1 r hr hnot
  · intro responses idxs target r r2 hne hlen hr hr2 hle
    exact (keptRounds_props responses idxs target hne hlen).2.2.2 r hr r2 hr2 hle

/-- C3 witness: a mismatched call errors; a two-round call is rebuilt from
the surviving rounds in order and as a sublist; the most recent round
index 1 is kept. -/
theorem truncate_oldest_rounds_spec_witness :
    truncate_oldest_rounds [{ model_name := "alpha", answer := "x" }] []
        { max_tokens := 1 } 0
      = .error "responses and round_indices must have same length"
    ∧ truncate_oldest_rounds
        [{ model_name := "alpha", answer := "aaaaaaaa" },
          { model_name := "beta", answer := "bbbbbbbb" }] [0, 1] { max_tokens := 1 } 3
      = .ok (((List.range 2).filter fun i =>
          decide (([0, 1] : List ℤ).getD i 0
            ∈ keptRounds [{ model_name := "alpha", answer := "aaaaaaaa" },
                { model_name := "beta", answer := "bbbbbbbb" }] [0, 1] 3)).map
          fun i => ([{ model_name := "alpha", answer := "aaaaaaaa" },
              { model_name := "beta", answer := "bbbbbbbb" }] : List Response).getD i
              default)
    ∧ (([0, 1] : List ℤ).maximum.getD 0
        ∈ keptRounds [{ model_name := "alpha", answer := "aaaaaaaa" },
            { model_name := "beta", answer := "bbbbbbbb" }] [0, 1] 3) := by
  refine ⟨?_, ?_, ?_⟩
  · exact truncate_oldest_rounds_spec.1 _ _ _ _ (by simp)
  · exact truncate_oldest_rounds_spec.2.1 _ _ _ _ (by simp)
  · exact truncate_oldest_rounds_spec.2.2.2.1 _ _ _ (by simp) (by simp)

/-! ### Claim C7 : retry classifier and executor -/

theorem retryLoop_count_le {α : Type} (fn : ℕ → Except ProviderErrorData α)
    (max_retries : ℕ) :
    ∀ (fuel attempt : ℕ), (retryLoop fn max_retries attempt fuel).2 ≤ fuel := by
  intro fuel
  induction fuel with
  | zero => intro attempt; simp [retryLoop]
  | succ fuel ih =>
    intro attempt
    simp only [retryLoop]
    cases fn attempt with
    | ok v => simp
    | error e =>
      by_cases hr : is_retryable e
      · simp only [hr, Bool.not_true]
        by_cases hm : max_retries ≤ attempt
        · simp [hm]
        · simp only [hm, if_false, if_true]
          have := ih (attempt + 1)
          simp
          omega
      · simp only [Bool.not_eq_true] at hr
        simp [hr]

theorem retryLoop_retry_step {α : Type} (fn : ℕ → Except ProviderErrorData α)
    (max_retries attempt : ℕ) (e : ProviderErrorData)
    (hei : fn attempt = .error e) (hri : is_retryable e = true)
    (hne : ¬ max_retries ≤ attempt) (fuel : ℕ) :
    retryLoop fn max_retries attempt (fuel + 1)
      = ((retryLoop fn max_retries (attempt + 1) fuel).1,
          (retryLoop fn max_retries (attempt + 1) fuel).2 + 1) := by
  simp [retryLoop, hei, hri, hne]

theorem retryLoop_exhaust {α : Type} (fn : ℕ → Except ProviderErrorData α)
    (max_retries : ℕ) (e : ProviderErrorData)
    (hall : ∀ i, i ≤ max_retries → ∃ ei, fn i = .error ei ∧ is_retryable ei = true)
    (hlast : fn max_retries = .error e) :
    ∀ (k attempt : ℕ), attempt + k = max_retries →
      retryLoop fn max_retries attempt (k + 1) = (.error e, k + 1) := by
  intro k
  induction k with
  | zero =>
    intro attempt h
    have ha : attempt = max_retries := by omega
    subst ha
    simp only [retryLoop, hlast]
    rcases hall attempt le_rfl with ⟨ei, hei, hri⟩
    rw [hlast] at hei
    have : ei = e := by
      cases hei
      rfl
    subst this
    simp [hri]
  | succ k ih =>
    intro attempt h
    rcases hall attempt (by omega) with ⟨ei, hei, hri⟩
    have hrec := ih (attempt + 1) (by omega)
    have hne : ¬ max_retries ≤ attempt := by omega
    rw [retryLoop_retry_step fn max_retries attempt ei hei hri hne (k + 1), hrec]

/-- C7: the retry executor performs at most `max_retries + 1` invocations;
two retryable failures followed by a success with `max_retries = 2`
returns the success after exactly 3 invocations; a non-retryable failure
is re-raised after exactly 1 invocation; when every attempt fails
retryably, the last error is re-raised after `max_retries + 1`
invocations; and an error is retryable iff its code is one of
timeout/network/rate_limit/service_unavailable. -/
theorem execute_with_retry_spec :
    (∀ (α : Type) (fn : ℕ → Except ProviderErrorData α) (max_retries : ℕ),
      (execute_with_retry fn max_retries).2 ≤ max_retries + 1) ∧
    (∀ (α : Type) (fn : ℕ → Except ProviderErrorData α) (v : α)
        (e0 e1 : ProviderErrorData),
      is_retryable e0 = true → is_retryable e1 = true →
      fn 0 = .error e0 → fn 1 = .error e1 → fn 2 = .ok v →
      execute_with_retry fn 2 = (.ok v, 3)) ∧
    (∀ (α : Type) (fn : ℕ → Except ProviderErrorData α) (e : ProviderErrorData)
        (max_retries : ℕ),
      is_retryable e = false → fn 0 = .error e →
      execute_with_retry fn max_retries = (.error e, 1)) ∧
    (∀ (α : Type) (fn : ℕ → Except ProviderErrorData α) (max_retries : ℕ)
        (e : ProviderErrorData),
      (∀ i, i ≤ max_retries → ∃ ei, fn i = .error ei ∧ is_retryable ei = true) →
      fn max_retries = .error e →
      execute_with_retry fn max_retries = (.error e, max_retries + 1)) ∧
    (∀ e : ProviderErrorData,
      is_retryable e = true ↔
        e.code ∈ [some "timeout", some "network", some "rate_limit",
          some "service_unavailable"]) := by
  refine ⟨?_, ?_, ?_, ?_, ?_⟩
  · intro α fn max_retries
    exact retryLoop_count_le fn max_retries (max_retries + 1) 0
  · intro α fn v e0 e1 hr0 hr1 h0 h1 h2
    simp [execute_with_retry, retryLoop, h0, h1, h2, hr0, hr1]
  · intro α fn e max_retries hr h0
    simp [execute_with_retry, retryLoop, h0, hr]
  · intro α fn max_retries e hall hlast
    exact retryLoop_exhaust fn max_retries e hall hlast max_retries 0 (by omega)
  · intro e
    unfold is_retryable
    cases hc : e.code with
    | none => simp
    | some c => simp [RETRYABLE_CODES]

/-- C7 witness: the flaky callable (timeout, timeout, success) with
`max_retries = 2` returns the success after 3 invocations; the auth-failing
callable is invoked once and its error re-raised; the always-timeout
callable with `max_retries = 1` exhausts after 2 invocations; the timeout
code is retryable. -/
theorem execute_with_retry_spec_witness :
    execute_with_retry demoFlaky 2 = (.ok 7, 3)
    ∧ execute_with_retry demoAuthFn 1 = (.error demoAuthErr, 1)
    ∧ execute_with_retry demoAlwaysTimeout 1 = (.error demoTimeoutErr, 2)
    ∧ (is_retryable demoTimeoutErr = true ↔
        demoTimeoutErr.code ∈ [some "timeout", some "network", some "rate_limit",
          some "service_unavailable"]) := by
  refine ⟨?_, ?_, ?_, ?_⟩
  · exact execute_with_retry_spec.2.1 ℕ demoFlaky 7 demoTimeoutErr demoTimeoutErr
      (by decide) (by decide) rfl rfl rfl
  · exact execute_with_retry_spec.2.2.1 ℕ demoAuthFn demoAuthErr 1
      (by decide) rfl
  · refine execute_with_retry_spec.2.2.2.1 ℕ demoAlwaysTimeout 1 demoTimeoutErr
      ?_ rfl
    intro i _
    exact ⟨demoTimeoutErr, rfl, by decide⟩
  · exact execute_with_retry_spec.2.2.2.2 demoTimeoutErr

/-! ### Claim C9 : the runner's exit code -/

/-- C9: every run that completes without a fatal error carries the success
exit code, whether or not consensus was reached — the distinction lives
only in the `consensus_reached` flag computed from the final mediator
state. -/
theorem run_consensus_exit_success :
    ∀ (providers : String → Option (PromptRequest → Except CallError Response))
      (mediatorCall : PromptRequest → Except CallError Response)
      (jsonParse : String → Option (Option String × Option String))
      (prompt : String) (config : RunConfig) (no_consensus_summary : Bool)
      (r : ConsensusResult),
      run_consensus providers mediatorCall jsonParse prompt config
          no_consensus_summary = .ok r →
      r.exit_code = ExitCode.success
      ∧ ∃ ms, r.mediator_state = some ms
          ∧ r.consensus_reached
            = (decide (config.quorum ≤ ms.approval_count)
                && decide (ms.critical_objections.length = 0)) := by
  intro providers mediatorCall jsonParse prompt config ncs r h
  unfold run_consensus at h
  cases hp : runPipeline providers mediatorCall jsonParse prompt config with
  | error e =>
    rw [hp] at h
    simp at h
  | ok st =>
    rw [hp] at h
    simp only [Except.ok.injEq] at h
    subst h
    refine ⟨?_, st.mediator_state, ?_, ?_⟩
    · simp [finalize_result]
    · simp [finalize_result]
    · simp [finalize_result]

/-- C9 witness: a concrete two-participant, one-round run completes and
carries the success exit code. -/
theorem run_consensus_exit_success_witness :
    ∃ r, run_consensus demoProviders demoMediatorCall demoJsonParse "q" demoConfig
        false = .ok r ∧ r.exit_code = ExitCode.success := by
  have hq : demoConfig.quorum = 2 := by
    simp [demoConfig, RunConfig.quorum]
  have h1 : collect_round1_responses demoProviders "q" demoConfig
      = ([respA, respB], []) := by rfl
  have hcheck : check_round_responses [respA, respB] demoConfig 1 = .ok () := by
    simp [check_round_responses, hq]
  have hsynth : synthesize_candidate demoMediatorCall demoJsonParse "q" [respA, respB]
      = .ok { candidate_answer := medResp.answer, rationale := "",
              approval_count := 0, critical_objections := [],
              disagreement_summary := none } := by rfl
  have hpipe : runPipeline demoProviders demoMediatorCall demoJsonParse "q" demoConfig
      = .ok { budget := none
              digest := build_digest [respA, respB]
              mediator_state :=
                { candidate_answer := medResp.answer, rationale := "",
                  approval_count := 0, critical_objections := [],
                  disagreement_summary := none }
              all_responses := [respA, respB]
              all_failed_models := []
              round_indices := List.replicate 2 0
              previous_candidate := none
              current_round := 1 } := by
    unfold runPipeline
    rw [h1]
    simp only [initBudget, trackRound1, hcheck, hsynth]
    simp [consensusLoop, demoConfig]
  have hrun : run_consensus demoProviders demoMediatorCall demoJsonParse "q"
      demoConfig false
      = .ok (finalize_result "q" demoConfig false
          { budget := none
            digest := build_digest [respA, respB]
            mediator_state :=
              { candidate_answer := medResp.answer, rationale := "",
                approval_count := 0, critical_objections := [],
                disagreement_summary := none }
            all_responses := [respA, respB]
            all_failed_models := []
            round_indices := List.replicate 2 0
            previous_candidate := none
            current_round := 1 }) := by
    unfold run_consensus
    rw [hpipe]
  exact ⟨_, hrun, (run_consensus_exit_success demoProviders demoMediatorCall
    demoJsonParse "q" demoConfig false _ hrun).1⟩

end Aicx
